import Mathlib

/-!
Verification development for the island-evacuation simulator
(`src/island.cpp`, `src/semaphore.cpp`, `src/semaphore.h`).

All trips in the program are serialized: the controller thread holds the
single boat mutex while it selects riders, assigns roles and waits on
`tripDoneCv` for the driver thread to commit the trip.  The embedding
below therefore models the program as a sequential state machine whose
atomic step is one dispatched trip (role assignment, boarding, pre-flip
of the boat location, rider movement, ledger and statistics update,
consecutive-row bookkeeping, and clearing of the seat slots), exactly
following the code of `Person::run` (driver branch) and
`controller_loop`.
-/

namespace Island


/-- Boat/person side, `enum Loc { ISLAND, MAINLAND }`. -/
inductive Loc
  | ISLAND
  | MAINLAND
deriving DecidableEq, Repr

/-- `static const int MAX_CONSECUTIVE = 4`. -/
def MAX_CONSECUTIVE : Nat := 4

/-- `Person::Role { NONE, DRIVER, PASSENGER }`. -/
inductive Role
  | NONE
  | DRIVER
  | PASSENGER
deriving DecidableEq, Repr

/-- `struct Person` (threading members dropped; they carry no state). -/
structure Person where
  id : Nat
  isAdult : Bool
  position : Loc := Loc.ISLAND
  consecutiveRows : Nat := 0
  role : Role := Role.NONE
  seated : Bool := false
  needsBreak : Bool := false
deriving DecidableEq, Repr

/-- `struct Boat` (mutexes, condition variables and the RNG dropped; the
trip duration only delays the commit and never affects the state).
`driver`/`passenger` hold indices into the people list, standing for the
`Person*` pointers of the source. -/
structure Boat where
  location : Loc := Loc.ISLAND
  adultsOnIsland : Int := 0
  childrenOnIsland : Int := 0
  driver : Option Nat := none
  passenger : Option Nat := none
  boardedCount : Nat := 0
  tripsToMain : Nat := 0
  tripsToIsland : Nat := 0
  twokidBoats : Nat := 0
  kidAdultBoats : Nat := 0
  soloBoats : Nat := 0
  adultDrivers : Nat := 0
  childDrivers : Nat := 0
deriving DecidableEq, Repr

/-- The whole shared state: the boat plus the people vector of `main`. -/
structure Sim where
  boat : Boat
  people : List Person
deriving DecidableEq, Repr

/-- Update the person at index `i` (a `Person*` write in the source). -/
def applyAt : Nat → (Person → Person) → List Person → List Person
  | _, _, [] => []
  | 0, f, p :: ps => f p :: ps
  | n + 1, f, p :: ps => p :: applyAt n f ps

/-- Dereference a person index; controller-produced indices are always
in range, the default is never reached from `controllerRun`. -/
def getPerson (ps : List Person) (i : Nat) : Person :=
  (ps[i]?).getD { id := 0, isAdult := false }

/-- First index (from `i0`) whose entry satisfies the predicate: the
linear scans of `find_person` and of the inline second-child loops. -/
def findIdxAux (pred : Nat → Person → Bool) : Nat → List Person → Option Nat
  | _, [] => none
  | i, p :: ps => if pred i p then some i else findIdxAux pred (i + 1) ps

/-- First pass of `find_person` (lines 344-351): also skips anybody at
or over the consecutive-row limit. -/
def passOnePred (wantAdult : Bool) (loc : Loc) (excludeNeedsBreak : Bool) (p : Person) : Bool :=
  p.isAdult == wantAdult && p.position == loc && p.role == Role.NONE
    && !(excludeNeedsBreak && p.needsBreak) && !(MAX_CONSECUTIVE ≤ p.consecutiveRows)

/-- Second pass of `find_person` (lines 352-358): the row-limit check is
dropped, only `excludeNeedsBreak` is still honored. -/
def passTwoPred (wantAdult : Bool) (loc : Loc) (excludeNeedsBreak : Bool) (p : Person) : Bool :=
  p.isAdult == wantAdult && p.position == loc && p.role == Role.NONE
    && !(excludeNeedsBreak && p.needsBreak)

/-- `find_person` (island.cpp lines 343-360): two scans over the people
vector, returning the index of the first match. -/
def find_person (people : List Person) (wantAdult : Bool) (loc : Loc)
    (excludeNeedsBreak : Bool := true) : Option Nat :=
  match findIdxAux (fun _ p => passOnePred wantAdult loc excludeNeedsBreak p) 0 people with
  | some i => some i
  | none => findIdxAux (fun _ p => passTwoPred wantAdult loc excludeNeedsBreak p) 0 people

/-- The inline scans for a second child on the island distinct from
`c1` (island.cpp lines 385 and 421); pointer inequality `p.get() != c1`
becomes index inequality. -/
def findSecondChild (people : List Person) (c1 : Nat) : Option Nat :=
  findIdxAux
    (fun i p => !p.isAdult && p.position == Loc.ISLAND && p.role == Role.NONE && i != c1)
    0 people

/-- `ISLAND ↔ MAINLAND`, the `dest` computation of line 153. -/
def flipLoc : Loc → Loc
  | Loc.ISLAND => Loc.MAINLAND
  | Loc.MAINLAND => Loc.ISLAND

/-- Lines 152-154 of `Person::run`: before the transit delay the driver
reads the current side and preemptively writes the boat's side as
already flipped.  Nothing else changes before the delay. -/
def tripStart (s : Sim) : Sim :=
  { s with boat := { s.boat with location := flipLoc s.boat.location } }

/-- The `movePerson` lambda of lines 166-177, applied to an optional
rider (`if (!p) return;` is the `none` case). -/
def moveOne (start : Loc) (s : Sim) : Option Nat → Sim
  | none => s
  | some i =>
    match s.people[i]? with
    | none => s
    | some p =>
      if start = Loc.ISLAND then
        { boat :=
            if p.isAdult then { s.boat with adultsOnIsland := s.boat.adultsOnIsland - 1 }
            else { s.boat with childrenOnIsland := s.boat.childrenOnIsland - 1 },
          people := applyAt i (fun q => { q with position := Loc.MAINLAND }) s.people }
      else
        { boat :=
            if p.isAdult then { s.boat with adultsOnIsland := s.boat.adultsOnIsland + 1 }
            else { s.boat with childrenOnIsland := s.boat.childrenOnIsland + 1 },
          people := applyAt i (fun q => { q with position := Loc.ISLAND }) s.people }

/-- Lines 166-221 and 236-238 of `Person::run`: everything the driver
does after the transit delay ends — move the riders, update the ledger,
bump the statistics, handle consecutive rows, clear the seat slots, and
reset the riders' role/seated flags. -/
def tripFinish (start : Loc) (s0 : Sim) : Sim :=
  let d := s0.boat.driver
  let pa := s0.boat.passenger
  let s1 := moveOne start s0 d
  let s2 := moveOne start s1 pa
  let b3 :=
    if start = Loc.ISLAND then { s2.boat with tripsToMain := s2.boat.tripsToMain + 1 }
    else { s2.boat with tripsToIsland := s2.boat.tripsToIsland + 1 }
  let b4 :=
    match d, pa with
    | some di, some pi =>
      if !(getPerson s2.people di).isAdult && !(getPerson s2.people pi).isAdult then
        { b3 with twokidBoats := b3.twokidBoats + 1 }
      else { b3 with kidAdultBoats := b3.kidAdultBoats + 1 }
    | _, _ => { b3 with soloBoats := b3.soloBoats + 1 }
  let b5 :=
    match d with
    | some di =>
      if (getPerson s2.people di).isAdult then { b4 with adultDrivers := b4.adultDrivers + 1 }
      else { b4 with childDrivers := b4.childDrivers + 1 }
    | none => b4
  let people6 :=
    match d with
    | some di =>
      applyAt di
        (fun q =>
          let q2 : Person := { q with consecutiveRows := q.consecutiveRows + 1 }
          if MAX_CONSECUTIVE ≤ q2.consecutiveRows then { q2 with needsBreak := true } else q2)
        s2.people
    | none => s2.people
  let people7 :=
    match pa with
    | some pi => applyAt pi (fun q => { q with consecutiveRows := 0, needsBreak := false }) people6
    | none => people6
  let b8 := { b5 with driver := none, passenger := none, boardedCount := 0 }
  let people9 :=
    match d with
    | some di => applyAt di (fun q => { q with role := Role.NONE, seated := false }) people7
    | none => people7
  let people10 :=
    match pa with
    | some pi => applyAt pi (fun q => { q with role := Role.NONE, seated := false }) people9
    | none => people9
  { boat := b8, people := people10 }

/-- One whole committed trip as the driver thread performs it: the
pre-delay location flip followed by the post-delay updates. -/
def tripCommit (s : Sim) : Sim :=
  tripFinish s.boat.location (tripStart s)

/-- The controller's role assignment for one trip (e.g. lines 388-389):
set the boat's seat slots and the riders' roles, reset their seated
flags. -/
def assignRoles (s : Sim) (d : Nat) (pa : Option Nat) : Sim :=
  let people1 := applyAt d (fun q => { q with role := Role.DRIVER, seated := false }) s.people
  let people2 :=
    match pa with
    | some pi => applyAt pi (fun q => { q with role := Role.PASSENGER, seated := false }) people1
    | none => people1
  { boat := { s.boat with driver := some d, passenger := pa }, people := people2 }

/-- The riders' boarding steps of `Person::run` (lines 140-141 and
230-231): set `seated` and bump `boardedCount` for each occupied seat. -/
def boardRiders (s : Sim) : Sim :=
  let s1 : Sim :=
    match s.boat.driver with
    | some di =>
      { boat := { s.boat with boardedCount := s.boat.boardedCount + 1 },
        people := applyAt di (fun q => { q with seated := true }) s.people }
    | none => s
  match s1.boat.passenger with
  | some pi =>
    { boat := { s1.boat with boardedCount := s1.boat.boardedCount + 1 },
      people := applyAt pi (fun q => { q with seated := true }) s1.people }
  | none => s1

/-- The five stages of the controller's deterministic cycle, used to tag
each dispatched trip with the step of `controller_loop` that issued it. -/
inductive Phase
  | KIDS_OUT
  | KID_BACK
  | ADULT_CROSS
  | KID_BACK2
  | KIDS_FINISH
deriving DecidableEq, Repr

/-- Record of one committed trip: the riders as they were at the moment
the controller granted them their roles, the boat state before grant and
after commit, the side the trip started from, and the boarded count at
departure. -/
structure Commit where
  phase : Phase
  start : Loc
  driverIdx : Nat
  driverAtGrant : Person
  passengerIdx : Option Nat
  passengerAtGrant : Option Person
  boarded : Nat
  pre : Boat
  post : Boat
deriving DecidableEq, Repr

/-- Dispatch one trip exactly as the program does: the controller
assigns the roles and slots, the riders board, the driver commits the
trip; the returned `Commit` records the observation points. -/
def dispatchTrip (phase : Phase) (s : Sim) (d : Nat) (pa : Option Nat) : Sim × Commit :=
  let sA := assignRoles s d pa
  let sB := boardRiders sA
  let sC := tripCommit sB
  (sC,
    { phase := phase, start := sB.boat.location,
      driverIdx := d, driverAtGrant := getPerson s.people d,
      passengerIdx := pa, passengerAtGrant := pa.map (getPerson s.people),
      boarded := sB.boat.boardedCount,
      pre := s.boat, post := sC.boat })

/-- One iteration of the adult cycle (island.cpp lines 380-414), the
four-step body of the `while (boat.adultsOnIsland > 0)` loop.  The
boolean result is `true` when the body ran to its end and the loop
continues, `false` when one of the `break` statements fired. -/
def adultCycle (s : Sim) : Sim × List Commit × Bool :=
  match find_person s.people false Loc.ISLAND false with
  | none => (s, [], false)
  | some c1 =>
    match findSecondChild s.people c1 with
    | none => (s, [], false)
    | some c2 =>
      let step1 := dispatchTrip Phase.KIDS_OUT s c1 (some c2)
      let s1 := step1.1
      let rc :=
        match find_person s1.people false Loc.MAINLAND false with
        | some i => some i
        | none => find_person s1.people true Loc.MAINLAND false
      match rc with
      | none => (s1, [step1.2], false)
      | some rcIdx =>
        let step2 := dispatchTrip Phase.KID_BACK s1 rcIdx none
        let s2 := step2.1
        match find_person s2.people true Loc.ISLAND false,
            find_person s2.people false Loc.ISLAND false with
        | some adult, some child =>
          let step3 := dispatchTrip Phase.ADULT_CROSS s2 child (some adult)
          let s3 := step3.1
          let rc2 :=
            match find_person s3.people false Loc.MAINLAND false with
            | some i => some i
            | none => find_person s3.people true Loc.MAINLAND false
          match rc2 with
          | none => (s3, [step1.2, step2.2, step3.2], false)
          | some rc2Idx =>
            let step4 := dispatchTrip Phase.KID_BACK2 s3 rc2Idx none
            (step4.1, [step1.2, step2.2, step3.2, step4.2], true)
        | _, _ => (s2, [step1.2, step2.2], false)

/-- The `while (boat.adultsOnIsland > 0)` loop, with fuel bounding the
number of iterations (the C++ loop has no built-in bound). -/
def mainLoop : Nat → Sim → Sim × List Commit
  | 0, s => (s, [])
  | fuel + 1, s =>
    if 0 < s.boat.adultsOnIsland then
      match adultCycle s with
      | (s', cs, true) =>
        let rest := mainLoop fuel s'
        (rest.1, cs ++ rest.2)
      | (s', cs, false) => (s', cs)
    else (s, [])

/-- One iteration of the child-drain loop (island.cpp lines 417-436). -/
def drainStep (s : Sim) : Sim × List Commit × Bool :=
  if 2 ≤ s.boat.childrenOnIsland then
    match find_person s.people false Loc.ISLAND true with
    | some c1 =>
      match findSecondChild s.people c1 with
      | some c2 =>
        let st := dispatchTrip Phase.KIDS_FINISH s c1 (some c2)
        (st.1, [st.2], true)
      | none => (s, [], false)
    | none => (s, [], false)
  else
    match find_person s.people false Loc.ISLAND true with
    | some c =>
      let st := dispatchTrip Phase.KIDS_FINISH s c none
      (st.1, [st.2], true)
    | none => (s, [], false)

/-- The `while (boat.childrenOnIsland > 0)` loop, with fuel. -/
def drainLoop : Nat → Sim → Sim × List Commit
  | 0, s => (s, [])
  | fuel + 1, s =>
    if 0 < s.boat.childrenOnIsland then
      match drainStep s with
      | (s', cs, true) =>
        let rest := drainLoop fuel s'
        (rest.1, cs ++ rest.2)
      | (s', cs, false) => (s', cs)
    else (s, [])

/-- `controller_loop` (island.cpp lines 377-443): the adult cycle
followed by the child drain. -/
def controller_loop (fuel : Nat) (s : Sim) : Sim × List Commit :=
  let m := mainLoop fuel s
  let dr := drainLoop fuel m.1
  (dr.1, m.2 ++ dr.2)

/-- `init_people` (island.cpp lines 305-325): `A` adults then `C`
children, ids starting at 1 within each category, all on the island. -/
def init_people (A C : Nat) : List Person :=
  ((List.range A).map fun i => ({ id := i + 1, isAdult := true } : Person))
    ++ ((List.range C).map fun i => ({ id := i + 1, isAdult := false } : Person))

/-- The state `main` builds before starting threads (lines 511-516). -/
def initSim (A C : Nat) : Sim :=
  { boat := { adultsOnIsland := (A : Int), childrenOnIsland := (C : Int) },
    people := init_people A C }

/-- The whole simulation run for a configuration: initial state, then
the controller's schedule of committed trips. -/
def controllerRun (A C fuel : Nat) : Sim × List Commit :=
  controller_loop fuel (initSim A C)

/-- `parse_args` (island.cpp lines 258-289).  An argument list entry is
`none` when `std::stoi` would throw on it; a list of length ≠ 2 is the
`argc != 3` case.  The result carries the parsed `(A, C)` on success. -/
def parse_args (args : List (Option Int)) : Option (Int × Int) :=
  match args with
  | [some A, some C] =>
    if A ≤ 0 ∨ C ≤ 0 then none
    else if C < 2 then none
    else if C < A + 1 then none
    else some (A, C)
  | _ => none

/-- All threads of `Person::run` can exit (and so `join_threads` and
`main` can return) exactly when both ledger counts are zero and every
person is on the mainland (line 126 for each person). -/
def fullEvacB (s : Sim) : Bool :=
  s.boat.adultsOnIsland == 0 && s.boat.childrenOnIsland == 0
    && s.people.all fun p => p.position == Loc.MAINLAND

/-- `main` (island.cpp lines 506-523): `some 1` = exit status 1 before
any thread starts, `some 0` = full run and exit status 0, `none` = the
run never exits (some thread of `Person::run` can never pass its exit
condition, so `join_threads` blocks forever). -/
def mainRun (fuel : Nat) (args : List (Option Int)) : Option Nat :=
  match parse_args args with
  | none => some 1
  | some (A, C) =>
    if fullEvacB (controllerRun A.toNat C.toNat fuel).1 then some 0 else none

/-- Observable outcome of one evaluation of the head of the retry loop
in `Person::run` (lines 124-136): the exit check of line 126 runs first,
then the role branches. -/
inductive RunOutcome
  | exitsLoop
  | proceedsAsDriver
  | proceedsAsPassenger
  | blocksWaiting
deriving DecidableEq, Repr

/-- Head of the retry loop of `Person::run` (lines 124-136). -/
def runLoopHead (b : Boat) (p : Person) : RunOutcome :=
  if b.adultsOnIsland == 0 && b.childrenOnIsland == 0 && p.position == Loc.MAINLAND then
    RunOutcome.exitsLoop
  else if p.role == Role.DRIVER then RunOutcome.proceedsAsDriver
  else if p.role == Role.PASSENGER then RunOutcome.proceedsAsPassenger
  else RunOutcome.blocksWaiting

/-- The spec's termination predicate over the shore ledger. -/
def donePred (b : Boat) : Prop :=
  b.adultsOnIsland = 0 ∧ b.childrenOnIsland = 0

instance (b : Boat) : Decidable (donePred b) := by
  unfold donePred; infer_instance



def driverAfter (start : Loc) (p : Person) : Person :=
  { p with
    position := flipLoc start,
    consecutiveRows := p.consecutiveRows + 1,
    needsBreak := if MAX_CONSECUTIVE ≤ p.consecutiveRows + 1 then true else p.needsBreak,
    role := Role.NONE, seated := false }

def passengerAfter (start : Loc) (p : Person) : Person :=
  { p with
    position := flipLoc start, consecutiveRows := 0, needsBreak := false,
    role := Role.NONE, seated := false }

def ledgerAdjust (start : Loc) (p : Person) (b : Boat) : Boat :=
  if start = Loc.ISLAND then
    if p.isAdult then { b with adultsOnIsland := b.adultsOnIsland - 1 }
    else { b with childrenOnIsland := b.childrenOnIsland - 1 }
  else
    if p.isAdult then { b with adultsOnIsland := b.adultsOnIsland + 1 }
    else { b with childrenOnIsland := b.childrenOnIsland + 1 }

def soloBoatAfter (b : Boat) (dp : Person) : Boat :=
  let b1 := ledgerAdjust b.location dp b
  let b2 := if b.location = Loc.ISLAND then { b1 with tripsToMain := b1.tripsToMain + 1 }
            else { b1 with tripsToIsland := b1.tripsToIsland + 1 }
  let b3 := { b2 with soloBoats := b2.soloBoats + 1 }
  let b4 := if dp.isAdult then { b3 with adultDrivers := b3.adultDrivers + 1 }
            else { b3 with childDrivers := b3.childDrivers + 1 }
  { b4 with location := flipLoc b.location, driver := none, passenger := none, boardedCount := 0 }

def pairBoatAfter (b : Boat) (dp pp : Person) : Boat :=
  let b1 := ledgerAdjust b.location pp (ledgerAdjust b.location dp b)
  let b2 := if b.location = Loc.ISLAND then { b1 with tripsToMain := b1.tripsToMain + 1 }
            else { b1 with tripsToIsland := b1.tripsToIsland + 1 }
  let b3 := if !dp.isAdult && !pp.isAdult then { b2 with twokidBoats := b2.twokidBoats + 1 }
            else { b2 with kidAdultBoats := b2.kidAdultBoats + 1 }
  let b4 := if dp.isAdult then { b3 with adultDrivers := b3.adultDrivers + 1 }
            else { b3 with childDrivers := b3.childDrivers + 1 }
  { b4 with location := flipLoc b.location, driver := none, passenger := none, boardedCount := 0 }

def RolesClear (ps : List Person) : Prop :=
  ∀ (i : Nat) (p : Person), ps[i]? = some p → p.role = Role.NONE

def RowsBounded (ps : List Person) : Prop :=
  ∀ (i : Nat) (p : Person), ps[i]? = some p → p.consecutiveRows ≤ MAX_CONSECUTIVE ∧
    (p.needsBreak = true ↔ p.consecutiveRows = MAX_CONSECUTIVE)

def AdultsFresh (ps : List Person) : Prop :=
  ∀ (i : Nat) (p : Person), ps[i]? = some p → p.isAdult = true → p.consecutiveRows = 0

def IslandKidRows (ps : List Person) : Prop :=
  ∀ (i : Nat) (p : Person), ps[i]? = some p → p.isAdult = false → p.position = Loc.ISLAND →
    (p.consecutiveRows = 0 ∨ p.consecutiveRows = 3 ∨ p.consecutiveRows = 4)

def ActiveUnique (ps : List Person) : Prop :=
  ∀ (i : Nat) (p : Person), ps[i]? = some p → p.isAdult = false → p.position = Loc.ISLAND →
    p.consecutiveRows ≠ 0 →
    ∀ (j : Nat) (q : Person), ps[j]? = some q → q.isAdult = false → q.position = Loc.ISLAND → j ≠ i →
      q.consecutiveRows = 0 ∧ i < j

def MainlandKidRows (ps : List Person) : Prop :=
  ∀ (i : Nat) (p : Person), ps[i]? = some p → p.isAdult = false → p.position = Loc.MAINLAND →
    (p.consecutiveRows = 0 ∨ p.consecutiveRows = 1 ∨ p.consecutiveRows = 4)

def FreshAboveMainland (ps : List Person) : Prop :=
  ∀ (i : Nat) (p : Person), ps[i]? = some p → p.isAdult = false → p.position = Loc.ISLAND →
    p.consecutiveRows = 0 →
    ∀ (j : Nat) (q : Person), ps[j]? = some q → q.isAdult = false → q.position = Loc.MAINLAND → j < i

def HeadInv (s : Sim) : Prop :=
  s.boat.location = Loc.ISLAND ∧ RolesClear s.people ∧ RowsBounded s.people ∧
  AdultsFresh s.people ∧ IslandKidRows s.people ∧ ActiveUnique s.people ∧
  MainlandKidRows s.people ∧ FreshAboveMainland s.people

def statsOk (b : Boat) : Prop :=
  b.tripsToMain + b.tripsToIsland = b.twokidBoats + b.kidAdultBoats + b.soloBoats ∧
  b.tripsToMain + b.tripsToIsland = b.adultDrivers + b.childDrivers

def GoodCommit (r : Commit) : Prop :=
  r.driverAtGrant.consecutiveRows < MAX_CONSECUTIVE ∧
  (r.driverAtGrant.isAdult = true → r.passengerAtGrant = none) ∧
  ((r.phase = Phase.KIDS_OUT ∨ r.phase = Phase.KID_BACK ∨ r.phase = Phase.KID_BACK2 ∨
      r.phase = Phase.KIDS_FINISH) → r.driverAtGrant.isAdult = false) ∧
  (r.phase = Phase.ADULT_CROSS → r.driverAtGrant.isAdult = false ∧
      ∃ q, r.passengerAtGrant = some q ∧ q.isAdult = true) ∧
  ((r.phase = Phase.KID_BACK ∨ r.phase = Phase.KID_BACK2) → r.passengerAtGrant = none) ∧
  (r.phase = Phase.KIDS_OUT → ∃ q, r.passengerAtGrant = some q ∧ q.isAdult = false) ∧
  (r.phase = Phase.KIDS_FINISH → ∀ q, r.passengerAtGrant = some q → q.isAdult = false) ∧
  (r.passengerAtGrant = none → r.boarded = 1) ∧
  (r.passengerAtGrant ≠ none → r.boarded = 2) ∧
  (donePred r.pre → r.phase = Phase.KID_BACK2) ∧
  r.post.tripsToMain + r.post.tripsToIsland = r.pre.tripsToMain + r.pre.tripsToIsland + 1 ∧
  r.post.twokidBoats + r.post.kidAdultBoats + r.post.soloBoats
    = r.pre.twokidBoats + r.pre.kidAdultBoats + r.pre.soloBoats + 1 ∧
  r.post.adultDrivers + r.post.childDrivers = r.pre.adultDrivers + r.pre.childDrivers + 1 ∧
  (statsOk r.pre → statsOk r.post)

def badArgs (args : List (Option Int)) : Prop :=
  args.length ≠ 2 ∨ none ∈ args ∨
    ∃ (A C : Int), args = [some A, some C] ∧ (A ≤ 0 ∨ C ≤ 0 ∨ C < 2 ∨ C < A + 1)

def dummyCommit : Commit :=
  { phase := Phase.KIDS_OUT, start := Loc.ISLAND, driverIdx := 0,
    driverAtGrant := { id := 0, isAdult := false }, passengerIdx := none,
    passengerAtGrant := none, boarded := 0, pre := {}, post := {} }

def witnessCommitA : Commit :=
  { phase := Phase.KIDS_OUT, start := Loc.ISLAND, driverIdx := 1,
    driverAtGrant :=
      { id := 1, isAdult := false, position := Loc.ISLAND, consecutiveRows := 0,
        role := Role.NONE, seated := false, needsBreak := false },
    passengerIdx := some 2,
    passengerAtGrant :=
      some { id := 2, isAdult := false, position := Loc.ISLAND, consecutiveRows := 0,
             role := Role.NONE, seated := false, needsBreak := false },
    boarded := 2,
    pre :=
      { location := Loc.ISLAND, adultsOnIsland := 1, childrenOnIsland := 2,
        driver := none, passenger := none, boardedCount := 0, tripsToMain := 0,
        tripsToIsland := 0, twokidBoats := 0, kidAdultBoats := 0, soloBoats := 0,
        adultDrivers := 0, childDrivers := 0 },
    post :=
      { location := Loc.MAINLAND, adultsOnIsland := 1, childrenOnIsland := 0,
        driver := none, passenger := none, boardedCount := 0, tripsToMain := 1,
        tripsToIsland := 0, twokidBoats := 1, kidAdultBoats := 0, soloBoats := 0,
        adultDrivers := 0, childDrivers := 1 } }

def witnessCommitB : Commit :=
  { phase := Phase.KID_BACK2, start := Loc.MAINLAND, driverIdx := 2,
    driverAtGrant :=
      { id := 1, isAdult := false, position := Loc.MAINLAND, consecutiveRows := 2,
        role := Role.NONE, seated := false, needsBreak := false },
    passengerIdx := none, passengerAtGrant := none, boarded := 1,
    pre :=
      { location := Loc.MAINLAND, adultsOnIsland := 0, childrenOnIsland := 0,
        driver := none, passenger := none, boardedCount := 0, tripsToMain := 4,
        tripsToIsland := 3, twokidBoats := 2, kidAdultBoats := 2, soloBoats := 3,
        adultDrivers := 0, childDrivers := 7 },
    post :=
      { location := Loc.ISLAND, adultsOnIsland := 0, childrenOnIsland := 1,
        driver := none, passenger := none, boardedCount := 0, tripsToMain := 4,
        tripsToIsland := 4, twokidBoats := 2, kidAdultBoats := 2, soloBoats := 4,
        adultDrivers := 0, childDrivers := 8 } }

end Island

namespace Semaphore


def UINT_MOD : Nat := 2 ^ 32

def mk : Nat := 1

def mkWith (start : Nat) : Nat := start % UINT_MOD

def signal (c : Nat) : Nat := (c + 1) % UINT_MOD

def wait (c : Nat) : Option Nat :=
  if 0 < c then some (c - 1) else none

end Semaphore

namespace Island

theorem applyAt_length (i : Nat) (f : Person → Person) (ps : List Person) :
    (applyAt i f ps).length = ps.length := by
  induction ps generalizing i with
  | nil => cases i <;> rfl
  | cons p ps ih => cases i <;> simp [applyAt, ih]

theorem applyAt_get_self (i : Nat) (f : Person → Person) (ps : List Person) :
    (applyAt i f ps)[i]? = (ps[i]?).map f := by
  induction ps generalizing i with
  | nil => cases i <;> rfl
  | cons p ps ih => cases i <;> simp [applyAt, ih]

theorem applyAt_get_ne (i j : Nat) (f : Person → Person) (ps : List Person) (h : j ≠ i) :
    (applyAt i f ps)[j]? = ps[j]? := by
  induction ps generalizing i j with
  | nil => cases i <;> rfl
  | cons p ps ih =>
    cases i with
    | zero => cases j with
      | zero => exact absurd rfl h
      | succ j => simp [applyAt]
    | succ i => cases j with
      | zero => simp [applyAt]
      | succ j => simp [applyAt, ih i j (by omega)]

theorem applyAt_applyAt_same (i : Nat) (f g : Person → Person) (ps : List Person) :
    applyAt i f (applyAt i g ps) = applyAt i (fun p => f (g p)) ps := by
  induction ps generalizing i with
  | nil => cases i <;> rfl
  | cons p ps ih => cases i <;> simp [applyAt, ih]

theorem applyAt_comm (i j : Nat) (f g : Person → Person) (ps : List Person) (h : i ≠ j) :
    applyAt i f (applyAt j g ps) = applyAt j g (applyAt i f ps) := by
  induction ps generalizing i j with
  | nil => cases i <;> cases j <;> rfl
  | cons p ps ih =>
    cases i with
    | zero => cases j with
      | zero => exact absurd rfl h
      | succ j => simp [applyAt]
    | succ i => cases j with
      | zero => simp [applyAt]
      | succ j => simp [applyAt, ih i j (by omega)]

theorem applyAt_congr (i : Nat) (f g : Person → Person) (ps : List Person)
    (h : ∀ p, f p = g p) : applyAt i f ps = applyAt i g ps := by
  induction ps generalizing i with
  | nil => cases i <;> rfl
  | cons p ps ih => cases i <;> simp [applyAt, h, ih]

theorem dispatch_solo_eq (ph : Phase) (s : Sim) (d : Nat) (dp : Person)
    (hd : s.people[d]? = some dp) :
    dispatchTrip ph s d none =
      ({ boat := soloBoatAfter s.boat dp,
         people := applyAt d (driverAfter s.boat.location) s.people },
       { phase := ph, start := s.boat.location, driverIdx := d, driverAtGrant := dp,
         passengerIdx := none, passengerAtGrant := none,
         boarded := s.boat.boardedCount + 1, pre := s.boat, post := soloBoatAfter s.boat dp }) := by
  cases hL : s.boat.location <;> cases hA : dp.isAdult <;>
    simp [dispatchTrip, assignRoles, boardRiders, tripCommit, tripStart, tripFinish, moveOne,
      applyAt_get_self, applyAt_get_ne, hd, applyAt_applyAt_same, getPerson,
      soloBoatAfter, ledgerAdjust, flipLoc, hL, hA, MAX_CONSECUTIVE, apply_ite] <;>
    exact applyAt_congr _ _ _ _ fun p => by
      simp [driverAfter, flipLoc, MAX_CONSECUTIVE, apply_ite]

theorem applyAt_congr2 (i j : Nat) (f1 g1 f2 g2 : Person → Person) (ps : List Person)
    (h1 : ∀ p, f1 p = g1 p) (h2 : ∀ p, f2 p = g2 p) :
    applyAt i f1 (applyAt j f2 ps) = applyAt i g1 (applyAt j g2 ps) := by
  rw [applyAt_congr j f2 g2 ps h2, applyAt_congr i f1 g1 _ h1]

theorem dispatch_pair_eq (ph : Phase) (s : Sim) (d pi : Nat) (dp pp : Person)
    (hd : s.people[d]? = some dp) (hp : s.people[pi]? = some pp) (hne : pi ≠ d) :
    dispatchTrip ph s d (some pi) =
      ({ boat := pairBoatAfter s.boat dp pp,
         people := applyAt pi (passengerAfter s.boat.location)
                    (applyAt d (driverAfter s.boat.location) s.people) },
       { phase := ph, start := s.boat.location, driverIdx := d, driverAtGrant := dp,
         passengerIdx := some pi, passengerAtGrant := some pp,
         boarded := s.boat.boardedCount + 2, pre := s.boat,
         post := pairBoatAfter s.boat dp pp }) := by
  have hcomm : ∀ (f g : Person → Person) (ps : List Person),
      applyAt d f (applyAt pi g ps) = applyAt pi g (applyAt d f ps) :=
    fun f g ps => applyAt_comm d pi f g ps (Ne.symm hne)
  cases hL : s.boat.location <;> cases hA : dp.isAdult <;> cases hB : pp.isAdult <;>
    simp [dispatchTrip, assignRoles, boardRiders, tripCommit, tripStart, tripFinish, moveOne,
      applyAt_get_self, applyAt_get_ne _ _ _ _ hne, applyAt_get_ne _ _ _ _ (Ne.symm hne),
      hd, hp, hne, applyAt_applyAt_same, hcomm, getPerson,
      pairBoatAfter, ledgerAdjust, flipLoc, hL, hA, hB, MAX_CONSECUTIVE, apply_ite] <;>
    exact applyAt_congr2 _ _ _ _ _ _ _
      (fun p => by simp [passengerAfter, flipLoc])
      (fun p => by simp [driverAfter, flipLoc, MAX_CONSECUTIVE, apply_ite])

theorem findIdxAux_sound (pred : Nat → Person → Bool) :
    ∀ (ps : List Person) (i0 j : Nat), findIdxAux pred i0 ps = some j →
      ∃ k p, j = i0 + k ∧ ps[k]? = some p ∧ pred j p = true ∧
        ∀ m q, m < k → ps[m]? = some q → pred (i0 + m) q = false := by
  intro ps
  induction ps with
  | nil => intro i0 j h; simp [findIdxAux] at h
  | cons p ps ih =>
    intro i0 j h
    by_cases hp : pred i0 p = true
    · simp [findIdxAux, hp] at h
      exact ⟨0, p, by omega, by simp, by simpa [← h] using hp, by intro m q hm; omega⟩
    · simp [findIdxAux, hp] at h
      obtain ⟨k, q, hj, hget, hpred, hmin⟩ := ih (i0 + 1) j h
      refine ⟨k + 1, q, by omega, by simpa using hget, hpred, ?_⟩
      intro m r hm hr
      cases m with
      | zero =>
        simp at hr
        simpa [← hr] using eq_false_of_ne_true hp
      | succ m =>
        simp at hr
        have := hmin m r (by omega) hr
        simpa [Nat.add_assoc, Nat.add_comm 1 m] using this

theorem findIdxAux_isSome (pred : Nat → Person → Bool) :
    ∀ (ps : List Person) (i0 : Nat),
      (∃ k p, ps[k]? = some p ∧ pred (i0 + k) p = true) →
      (findIdxAux pred i0 ps).isSome = true := by
  intro ps
  induction ps with
  | nil => intro i0 ⟨k, p, h, _⟩; simp at h
  | cons p ps ih =>
    intro i0 ⟨k, q, hget, hpred⟩
    by_cases hp : pred i0 p = true
    · simp [findIdxAux, hp]
    · cases k with
      | zero =>
        simp at hget hpred
        rw [hget] at hp
        rw [hpred] at hp
        simp at hp
      | succ k =>
        simp at hget
        simp [findIdxAux, hp]
        exact ih (i0 + 1) ⟨k, q, hget, by simpa [Nat.add_assoc, Nat.add_comm 1 k] using hpred⟩

theorem passOnePred_iff (w : Bool) (loc : Loc) (ex : Bool) (p : Person) :
    passOnePred w loc ex p = true ↔
      p.isAdult = w ∧ p.position = loc ∧ p.role = Role.NONE ∧
        (ex = true → p.needsBreak = false) ∧ p.consecutiveRows < MAX_CONSECUTIVE := by
  cases ex <;> cases hnb : p.needsBreak <;>
    simp [passOnePred, hnb, MAX_CONSECUTIVE, Nat.lt_iff_add_one_le, Nat.not_le] <;> tauto

theorem passTwoPred_iff (w : Bool) (loc : Loc) (ex : Bool) (p : Person) :
    passTwoPred w loc ex p = true ↔
      p.isAdult = w ∧ p.position = loc ∧ p.role = Role.NONE ∧
        (ex = true → p.needsBreak = false) := by
  cases ex <;> cases hnb : p.needsBreak <;> simp [passTwoPred, hnb] <;> tauto

theorem find_person_sound (ps : List Person) (w : Bool) (loc : Loc) (ex : Bool) (i : Nat)
    (h : find_person ps w loc ex = some i) :
    ∃ p, ps[i]? = some p ∧ p.isAdult = w ∧ p.position = loc ∧ p.role = Role.NONE ∧
      (ex = true → p.needsBreak = false) := by
  unfold find_person at h
  rcases hm : findIdxAux (fun _ p => passOnePred w loc ex p) 0 ps with _ | j
  · rw [hm] at h
    obtain ⟨k, p, hk, hget, hpred, _⟩ := findIdxAux_sound _ _ _ _ h
    rw [passTwoPred_iff] at hpred
    exact ⟨p, by simpa [hk] using hget, hpred.1, hpred.2.1, hpred.2.2.1, hpred.2.2.2⟩
  · rw [hm] at h
    obtain ⟨k, p, hk, hget, hpred, _⟩ := findIdxAux_sound _ _ _ _ hm
    simp at h
    subst h
    rw [passOnePred_iff] at hpred
    exact ⟨p, by simpa [hk] using hget, hpred.1, hpred.2.1, hpred.2.2.1, hpred.2.2.2.1⟩

theorem find_person_of_passOne (ps : List Person) (w : Bool) (loc : Loc) (ex : Bool)
    (h : ∃ (k : Nat) (p : Person), ps[k]? = some p ∧ passOnePred w loc ex p = true) :
    ∃ i p, find_person ps w loc ex = some i ∧ ps[i]? = some p ∧
      passOnePred w loc ex p = true ∧
      ∀ j q, j < i → ps[j]? = some q → passOnePred w loc ex q = false := by
  obtain ⟨k, p, hget, hpred⟩ := h
  have hcand : ∃ (kk : Nat) (qq : Person), ps[kk]? = some qq ∧
      (fun (_ : Nat) (q : Person) => passOnePred w loc ex q) (0 + kk) qq = true :=
    ⟨k, p, hget, by simpa using hpred⟩
  have hsome : (findIdxAux (fun _ p => passOnePred w loc ex p) 0 ps).isSome = true :=
    findIdxAux_isSome (fun _ q => passOnePred w loc ex q) ps 0 hcand
  rcases hm : findIdxAux (fun _ p => passOnePred w loc ex p) 0 ps with _ | i
  · rw [hm] at hsome; simp at hsome
  · obtain ⟨k', q, hk', hget', hpred', hmin⟩ := findIdxAux_sound _ _ _ _ hm
    refine ⟨i, q, ?_, by simpa [hk'] using hget', hpred', ?_⟩
    · unfold find_person
      rw [hm]
    · intro j r hj hr
      have := hmin j r (by omega) hr
      simpa using this

theorem passOnePred_rows (w : Bool) (loc : Loc) (ex : Bool) (p : Person)
    (h : passOnePred w loc ex p = true) : p.consecutiveRows < MAX_CONSECUTIVE :=
  ((passOnePred_iff w loc ex p).mp h).2.2.2.2

theorem findSecondChild_sound (ps : List Person) (c1 i : Nat)
    (h : findSecondChild ps c1 = some i) :
    ∃ p, ps[i]? = some p ∧ p.isAdult = false ∧ p.position = Loc.ISLAND ∧
      p.role = Role.NONE ∧ i ≠ c1 := by
  obtain ⟨k, p, hk, hget, hpred, _⟩ := findIdxAux_sound _ _ _ _ h
  have hik : i = k := by omega
  subst hik
  refine ⟨p, hget, ?_⟩
  cases hia : p.isAdult <;> cases hpos : p.position <;> cases hrole : p.role <;>
    simp [hia, hpos, hrole] at hpred ⊢ <;> tauto

theorem find_person_isSome (ps : List Person) (w : Bool) (loc : Loc) (ex : Bool)
    (h : ∃ (k : Nat) (p : Person), ps[k]? = some p ∧ passTwoPred w loc ex p = true) :
    ∃ i, find_person ps w loc ex = some i := by
  unfold find_person
  rcases hm : findIdxAux (fun _ p => passOnePred w loc ex p) 0 ps with _ | j
  · obtain ⟨k, p, hget, hpred⟩ := h
    have hcand : ∃ (kk : Nat) (qq : Person), ps[kk]? = some qq ∧
        (fun (_ : Nat) (q : Person) => passTwoPred w loc ex q) (0 + kk) qq = true :=
      ⟨k, p, hget, by simpa using hpred⟩
    have hsome := findIdxAux_isSome (fun _ p => passTwoPred w loc ex p) ps 0 hcand
    rcases h2 : findIdxAux (fun _ p => passTwoPred w loc ex p) 0 ps with _ | i
    · rw [h2] at hsome; simp at hsome
    · exact ⟨i, rfl⟩
  · exact ⟨j, rfl⟩

theorem RolesClear_update (ps : List Person) (i : Nat) (f : Person → Person)
    (hR : RolesClear ps) (hf : ∀ p, (f p).role = Role.NONE) :
    RolesClear (applyAt i f ps) := by
  intro j q hq
  by_cases hji : j = i
  · subst hji
    rw [applyAt_get_self] at hq
    rcases hget : ps[j]? with _ | p
    · rw [hget] at hq; simp at hq
    · rw [hget] at hq
      simp at hq
      rw [← hq]
      exact hf p
  · rw [applyAt_get_ne _ _ _ _ hji] at hq
    exact hR j q hq

theorem RowsBounded_update (ps : List Person) (i : Nat) (f : Person → Person)
    (hB : RowsBounded ps)
    (hf : ∀ p, ps[i]? = some p →
      (f p).consecutiveRows ≤ MAX_CONSECUTIVE ∧
        ((f p).needsBreak = true ↔ (f p).consecutiveRows = MAX_CONSECUTIVE)) :
    RowsBounded (applyAt i f ps) := by
  intro j q hq
  by_cases hji : j = i
  · subst hji
    rw [applyAt_get_self] at hq
    rcases hget : ps[j]? with _ | p
    · rw [hget] at hq; simp at hq
    · rw [hget] at hq
      simp at hq
      rw [← hq]
      exact hf p hget
  · rw [applyAt_get_ne _ _ _ _ hji] at hq
    exact hB j q hq

theorem driverAfter_rows_ok (L : Loc) (p : Person) (hp : p.consecutiveRows < MAX_CONSECUTIVE)
    (hnb : p.needsBreak = true ↔ p.consecutiveRows = MAX_CONSECUTIVE) :
    (driverAfter L p).consecutiveRows ≤ MAX_CONSECUTIVE ∧
      ((driverAfter L p).needsBreak = true ↔
        (driverAfter L p).consecutiveRows = MAX_CONSECUTIVE) := by
  have hp2 : p.consecutiveRows < 4 := hp
  have hnb2 : p.needsBreak = false := by
    cases hb : p.needsBreak
    · rfl
    · exact absurd (hnb.mp hb) (by omega)
  by_cases h4 : MAX_CONSECUTIVE ≤ p.consecutiveRows + 1 <;>
    simp [driverAfter, h4, hnb2, MAX_CONSECUTIVE] <;> omega

theorem passengerAfter_rows_ok (L : Loc) (p : Person) :
    (passengerAfter L p).consecutiveRows ≤ MAX_CONSECUTIVE ∧
      ((passengerAfter L p).needsBreak = true ↔
        (passengerAfter L p).consecutiveRows = MAX_CONSECUTIVE) := by
  simp [passengerAfter, MAX_CONSECUTIVE]

theorem findSecondChild_min (ps : List Person) (c1 i : Nat)
    (h : findSecondChild ps c1 = some i) :
    ∀ (j : Nat) (q : Person), j < i → ps[j]? = some q → q.isAdult = false →
      q.position = Loc.ISLAND → q.role = Role.NONE → j = c1 := by
  obtain ⟨k, p, hk, hget, hpred, hmin⟩ := findIdxAux_sound _ _ _ _ h
  have hik : i = k := by omega
  subst hik
  intro j q hj hq hkid hpos hrole
  have := hmin j q (by omega) hq
  simp [hkid, hpos, hrole] at this
  exact this

theorem pairBoatAfter_base (b : Boat) (dp pp : Person) :
    (pairBoatAfter b dp pp).location = flipLoc b.location ∧
    (pairBoatAfter b dp pp).driver = none ∧
    (pairBoatAfter b dp pp).passenger = none ∧
    (pairBoatAfter b dp pp).boardedCount = 0 := by
  simp [pairBoatAfter]

theorem soloBoatAfter_base (b : Boat) (dp : Person) :
    (soloBoatAfter b dp).location = flipLoc b.location ∧
    (soloBoatAfter b dp).driver = none ∧
    (soloBoatAfter b dp).passenger = none ∧
    (soloBoatAfter b dp).boardedCount = 0 := by
  simp [soloBoatAfter]

theorem pairBoatAfter_sums (b : Boat) (dp pp : Person) :
    (pairBoatAfter b dp pp).tripsToMain + (pairBoatAfter b dp pp).tripsToIsland
      = b.tripsToMain + b.tripsToIsland + 1 ∧
    (pairBoatAfter b dp pp).twokidBoats + (pairBoatAfter b dp pp).kidAdultBoats
        + (pairBoatAfter b dp pp).soloBoats
      = b.twokidBoats + b.kidAdultBoats + b.soloBoats + 1 ∧
    (pairBoatAfter b dp pp).adultDrivers + (pairBoatAfter b dp pp).childDrivers
      = b.adultDrivers + b.childDrivers + 1 := by
  rcases hLoc : b.location <;> cases hA : dp.isAdult <;> cases hB : pp.isAdult <;>
    simp [pairBoatAfter, ledgerAdjust, hLoc, hA, hB] <;> omega

theorem soloBoatAfter_sums (b : Boat) (dp : Person) :
    (soloBoatAfter b dp).tripsToMain + (soloBoatAfter b dp).tripsToIsland
      = b.tripsToMain + b.tripsToIsland + 1 ∧
    (soloBoatAfter b dp).twokidBoats + (soloBoatAfter b dp).kidAdultBoats
        + (soloBoatAfter b dp).soloBoats
      = b.twokidBoats + b.kidAdultBoats + b.soloBoats + 1 ∧
    (soloBoatAfter b dp).adultDrivers + (soloBoatAfter b dp).childDrivers
      = b.adultDrivers + b.childDrivers + 1 := by
  rcases hLoc : b.location <;> cases hA : dp.isAdult <;>
    simp [soloBoatAfter, ledgerAdjust, hLoc, hA] <;> omega

theorem pairBoatAfter_adults_kids (b : Boat) (dp pp : Person)
    (hA : dp.isAdult = false) (hB : pp.isAdult = false) :
    (pairBoatAfter b dp pp).adultsOnIsland = b.adultsOnIsland := by
  rcases hLoc : b.location <;> simp [pairBoatAfter, ledgerAdjust, hLoc, hA, hB]

theorem soloBoatAfter_adults_kid (b : Boat) (dp : Person) (hA : dp.isAdult = false) :
    (soloBoatAfter b dp).adultsOnIsland = b.adultsOnIsland := by
  rcases hLoc : b.location <;> simp [soloBoatAfter, ledgerAdjust, hLoc, hA]

theorem dispatch_solo_eq2 (ph : Phase) (b : Boat) (ps : List Person) (d : Nat) (dp : Person)
    (hd : ps[d]? = some dp) :
    dispatchTrip ph ⟨b, ps⟩ d none =
      (⟨soloBoatAfter b dp, applyAt d (driverAfter b.location) ps⟩,
       { phase := ph, start := b.location, driverIdx := d, driverAtGrant := dp,
         passengerIdx := none, passengerAtGrant := none,
         boarded := b.boardedCount + 1, pre := b, post := soloBoatAfter b dp }) :=
  dispatch_solo_eq ph ⟨b, ps⟩ d dp hd

theorem dispatch_pair_eq2 (ph : Phase) (b : Boat) (ps : List Person) (d pi : Nat)
    (dp pp : Person) (hd : ps[d]? = some dp) (hp : ps[pi]? = some pp) (hne : pi ≠ d) :
    dispatchTrip ph ⟨b, ps⟩ d (some pi) =
      (⟨pairBoatAfter b dp pp,
        applyAt pi (passengerAfter b.location) (applyAt d (driverAfter b.location) ps)⟩,
       { phase := ph, start := b.location, driverIdx := d, driverAtGrant := dp,
         passengerIdx := some pi, passengerAtGrant := some pp,
         boarded := b.boardedCount + 2, pre := b, post := pairBoatAfter b dp pp }) :=
  dispatch_pair_eq ph ⟨b, ps⟩ d pi dp pp hd hp hne

theorem statsOk_next (pre post : Boat)
    (h1 : post.tripsToMain + post.tripsToIsland = pre.tripsToMain + pre.tripsToIsland + 1)
    (h2 : post.twokidBoats + post.kidAdultBoats + post.soloBoats
      = pre.twokidBoats + pre.kidAdultBoats + pre.soloBoats + 1)
    (h3 : post.adultDrivers + post.childDrivers = pre.adultDrivers + pre.childDrivers + 1)
    (h : statsOk pre) : statsOk post := by
  obtain ⟨ha, hb⟩ := h
  exact ⟨by omega, by omega⟩

theorem adultCycle_spec (s : Sim) (hInv : HeadInv s) (hbc : s.boat.boardedCount = 0)
    (hAdults : 0 < s.boat.adultsOnIsland) :
    (∀ r ∈ (adultCycle s).2.1, GoodCommit r) ∧
    (statsOk s.boat →
      (∀ r ∈ (adultCycle s).2.1, statsOk r.pre ∧ statsOk r.post) ∧
        statsOk (adultCycle s).1.boat) ∧
    RolesClear (adultCycle s).1.people ∧ RowsBounded (adultCycle s).1.people ∧
    (adultCycle s).1.boat.boardedCount = 0 ∧
    ((adultCycle s).2.2 = true → HeadInv (adultCycle s).1) := by
  obtain ⟨hL, hRoles, hRows, hAF, hIK, hAU, hMK, hFA⟩ := hInv
  rcases h1 : find_person s.people false Loc.ISLAND false with _ | c1
  · simp only [adultCycle, h1]
    exact ⟨by simp, fun hst => ⟨by simp, hst⟩, hRoles, hRows, hbc, by simp⟩
  rcases h2 : findSecondChild s.people c1 with _ | c2
  · simp only [adultCycle, h1, h2]
    exact ⟨by simp, fun hst => ⟨by simp, hst⟩, hRoles, hRows, hbc, by simp⟩
  -- persons at c1 and c2
  obtain ⟨dp1, hdp1get, hdp1kid, hdp1isl, hdp1role, -⟩ := find_person_sound _ _ _ _ _ h1
  obtain ⟨pp2, hpp2get, hpp2kid, hpp2isl, hpp2role, hc2ne⟩ := findSecondChild_sound _ _ _ h2
  -- c1 was selected by the first pass of find_person, so its rows are < 4
  have hcand1 : ∃ (k : Nat) (q : Person), s.people[k]? = some q ∧
      passOnePred false Loc.ISLAND false q = true := by
    by_cases hlt : dp1.consecutiveRows < MAX_CONSECUTIVE
    · exact ⟨c1, dp1, hdp1get,
        (passOnePred_iff _ _ _ _).mpr ⟨hdp1kid, hdp1isl, hdp1role, by simp, hlt⟩⟩
    · have hne0 : dp1.consecutiveRows ≠ 0 := by
        have := (hRows c1 dp1 hdp1get).1
        simp [MAX_CONSECUTIVE] at hlt this ⊢
        omega
      have hz := hAU c1 dp1 hdp1get hdp1kid hdp1isl hne0 c2 pp2 hpp2get hpp2kid hpp2isl hc2ne
      exact ⟨c2, pp2, hpp2get,
        (passOnePred_iff _ _ _ _).mpr ⟨hpp2kid, hpp2isl, hpp2role, by simp,
          by rw [hz.1]; simp [MAX_CONSECUTIVE]⟩⟩
  obtain ⟨i1, q1, hfind1, hq1get, hq1p1, hmin1⟩ := find_person_of_passOne _ _ _ _ hcand1
  rw [h1] at hfind1
  injection hfind1 with hi1
  subst hi1
  rw [hdp1get] at hq1get
  injection hq1get with hq1eq
  subst hq1eq
  have hdp1lt : dp1.consecutiveRows < MAX_CONSECUTIVE := passOnePred_rows _ _ _ _ hq1p1
  have hdp1lt4 : dp1.consecutiveRows < 4 := hdp1lt
  have hdp1mem : dp1.consecutiveRows = 0 ∨ dp1.consecutiveRows = 3 := by
    rcases hIK c1 dp1 hdp1get hdp1kid hdp1isl with h | h | h <;> omega
  -- every island child other than c1 and c2 is fresh (rows 0) and above both
  have hfresh : ∀ (j : Nat) (q : Person), s.people[j]? = some q → q.isAdult = false →
      q.position = Loc.ISLAND → j ≠ c1 → j ≠ c2 →
      q.consecutiveRows = 0 ∧ c1 < j ∧ c2 < j := by
    intro j q hjget hjkid hjisl hjc1 hjc2
    have hjrole : q.role = Role.NONE := hRoles j q hjget
    have hq0 : q.consecutiveRows = 0 := by
      by_contra hne0
      have h2' := hAU j q hjget hjkid hjisl hne0 c2 pp2 hpp2get hpp2kid hpp2isl
        (fun h => hjc2 h.symm)
      exact hjc1 (findSecondChild_min _ _ _ h2 j q h2'.2 hjget hjkid hjisl hjrole)
    refine ⟨hq0, ?_, ?_⟩
    · by_contra hle
      have hjlt : j < c1 := by omega
      have hf := hmin1 j q hjlt hjget
      have ht : passOnePred false Loc.ISLAND false q = true :=
        (passOnePred_iff _ _ _ _).mpr ⟨hjkid, hjisl, hjrole, by simp,
          by rw [hq0]; simp [MAX_CONSECUTIVE]⟩
      rw [hf] at ht
      exact Bool.false_ne_true ht
    · by_contra hle
      have hjlt : j < c2 := by omega
      exact hjc1 (findSecondChild_min _ _ _ h2 j q hjlt hjget hjkid hjisl hjrole)
  -- dispatch of the KIDS_OUT trip
  have hD1 := dispatch_pair_eq Phase.KIDS_OUT s c1 c2 dp1 pp2 hdp1get hpp2get hc2ne
  rw [hL] at hD1
  set ps1 := applyAt c2 (passengerAfter Loc.ISLAND) (applyAt c1 (driverAfter Loc.ISLAND) s.people)
    with hps1def
  set b1 := pairBoatAfter s.boat dp1 pp2 with hb1def
  -- lookups in ps1
  have hget1o : ∀ (j : Nat), j ≠ c1 → j ≠ c2 → ps1[j]? = s.people[j]? := by
    intro j hj1 hj2
    rw [hps1def, applyAt_get_ne _ _ _ _ hj2, applyAt_get_ne _ _ _ _ hj1]
  have hget1c1 : ps1[c1]? = some (driverAfter Loc.ISLAND dp1) := by
    rw [hps1def, applyAt_get_ne _ _ _ _ (fun h => hc2ne h.symm), applyAt_get_self, hdp1get]
    rfl
  have hget1c2 : ps1[c2]? = some (passengerAfter Loc.ISLAND pp2) := by
    rw [hps1def, applyAt_get_self, applyAt_get_ne _ _ _ _ hc2ne, hpp2get]
    rfl
  have hRoles1 : RolesClear ps1 := by
    rw [hps1def]
    exact RolesClear_update _ _ _
      (RolesClear_update _ _ _ hRoles (fun p => by simp [driverAfter]))
      (fun p => by simp [passengerAfter])
  have hRows1 : RowsBounded ps1 := by
    rw [hps1def]
    refine RowsBounded_update _ _ _ (RowsBounded_update _ _ _ hRows ?_) ?_
    · intro p hp
      rw [hdp1get] at hp
      injection hp with hp
      subst hp
      exact driverAfter_rows_ok _ _ hdp1lt (hRows c1 dp1 hdp1get).2
    · intro p hp
      exact passengerAfter_rows_ok _ _
  -- the boat after the first trip
  have hb1loc : b1.location = Loc.MAINLAND := by
    rw [hb1def]
    have := (pairBoatAfter_base s.boat dp1 pp2).1
    rw [hL] at this
    simpa [flipLoc] using this
  have hb1adults : b1.adultsOnIsland = s.boat.adultsOnIsland := by
    rw [hb1def]; exact pairBoatAfter_adults_kids _ _ _ hdp1kid hpp2kid
  have hb1rest := pairBoatAfter_base s.boat dp1 pp2
  have hb1sums := pairBoatAfter_sums s.boat dp1 pp2
  -- the KID_BACK return finder always finds a child: c2 is now on the mainland
  have hc2cand : passOnePred false Loc.MAINLAND false (passengerAfter Loc.ISLAND pp2) = true := by
    apply (passOnePred_iff _ _ _ _).mpr
    refine ⟨by simp [passengerAfter, hpp2kid], by simp [passengerAfter, flipLoc], ?_, by simp, ?_⟩
    · simp [passengerAfter]
    · simp [passengerAfter, MAX_CONSECUTIVE]
  obtain ⟨w, q2, hfindw, hq2get, hq2p1, hmin2⟩ :=
    find_person_of_passOne ps1 false Loc.MAINLAND false ⟨c2, _, hget1c2, hc2cand⟩
  have hq2iff := (passOnePred_iff _ _ _ _).mp hq2p1
  have hq2kid : q2.isAdult = false := hq2iff.1
  have hq2mnl : q2.position = Loc.MAINLAND := hq2iff.2.1
  have hq2role : q2.role = Role.NONE := hq2iff.2.2.1
  have hq2lt : q2.consecutiveRows < MAX_CONSECUTIVE := hq2iff.2.2.2.2
  -- the rows of the returning child are 0 or 1
  have hq2rows : q2.consecutiveRows = 0 ∨ q2.consecutiveRows = 1 := by
    by_cases hw2 : w = c2
    · subst hw2
      rw [hget1c2] at hq2get
      injection hq2get with hq
      subst hq
      left
      simp [passengerAfter]
    by_cases hw1 : w = c1
    · subst hw1
      rw [hget1c1] at hq2get
      injection hq2get with hq
      subst hq
      have hlt4 : (driverAfter Loc.ISLAND dp1).consecutiveRows < 4 := hq2lt
      simp [driverAfter] at hlt4 ⊢
      omega
    · rw [hget1o w hw1 hw2] at hq2get
      have := hMK w q2 hq2get hq2kid ?_
      · have h4 : q2.consecutiveRows < 4 := hq2lt
        omega
      · -- q2 is untouched, so its position in s is also MAINLAND
        exact hq2mnl
  -- the returning child sits below every fresh island child
  have hwfresh : ∀ (j : Nat) (q : Person), s.people[j]? = some q → q.isAdult = false →
      q.position = Loc.ISLAND → j ≠ c1 → j ≠ c2 → w < j := by
    intro j q hj hjk hji hjc1 hjc2
    obtain ⟨hq0, hc1j, hc2j⟩ := hfresh j q hj hjk hji hjc1 hjc2
    by_cases hw1 : w = c1
    · omega
    by_cases hw2 : w = c2
    · omega
    · rw [hget1o w hw1 hw2] at hq2get
      exact hFA j q hj hjk hji hq0 w q2 hq2get hq2kid hq2mnl
  -- dispatch of the KID_BACK return trip
  have hD2 := dispatch_solo_eq2 Phase.KID_BACK b1 ps1 w q2 hq2get
  rw [hb1loc] at hD2
  set ps2 := applyAt w (driverAfter Loc.MAINLAND) ps1 with hps2def
  set b2 := soloBoatAfter b1 q2 with hb2def
  have hget2o : ∀ (j : Nat), j ≠ w → ps2[j]? = ps1[j]? := by
    intro j hj
    rw [hps2def, applyAt_get_ne _ _ _ _ hj]
  have hget2w : ps2[w]? = some (driverAfter Loc.MAINLAND q2) := by
    rw [hps2def, applyAt_get_self, hq2get]
    rfl
  have hRoles2 : RolesClear ps2 := by
    rw [hps2def]
    exact RolesClear_update _ _ _ hRoles1 (fun p => by simp [driverAfter])
  have hRows2 : RowsBounded ps2 := by
    rw [hps2def]
    refine RowsBounded_update _ _ _ hRows1 ?_
    intro p hp
    rw [hq2get] at hp
    injection hp with hp
    subst hp
    exact driverAfter_rows_ok _ _ hq2lt (hRows1 w q2 hq2get).2
  have hb2loc : b2.location = Loc.ISLAND := by
    rw [hb2def]
    have := (soloBoatAfter_base b1 q2).1
    rw [hb1loc] at this
    simpa [flipLoc] using this
  have hb2adults : b2.adultsOnIsland = s.boat.adultsOnIsland := by
    rw [hb2def, soloBoatAfter_adults_kid _ _ hq2kid, hb1adults]
  have hb2rest := soloBoatAfter_base b1 q2
  have hb2sums := soloBoatAfter_sums b1 q2
  have hSt1 : statsOk s.boat → statsOk b1 := by
    intro hst
    rw [hb1def]
    exact statsOk_next _ _ hb1sums.1 hb1sums.2.1 hb1sums.2.2 hst
  have hSt2 : statsOk b1 → statsOk b2 := by
    intro hst
    rw [hb2def]
    exact statsOk_next _ _ hb2sums.1 hb2sums.2.1 hb2sums.2.2 hst
  -- the first two trip records
  have hGC1 : GoodCommit
      { phase := Phase.KIDS_OUT, start := Loc.ISLAND, driverIdx := c1, driverAtGrant := dp1,
        passengerIdx := some c2, passengerAtGrant := some pp2,
        boarded := s.boat.boardedCount + 2, pre := s.boat, post := b1 } := by
    unfold GoodCommit
    refine ⟨hdp1lt, ?_, fun _ => hdp1kid, by simp, by simp, ?_, by simp, by simp, ?_, ?_,
      ?_, ?_, ?_, ?_⟩
    · intro hA
      rw [hdp1kid] at hA
      exact absurd hA (by simp)
    · intro _
      exact ⟨pp2, rfl, hpp2kid⟩
    · intro _
      rw [hbc]
    · intro hdone
      have hz : s.boat.adultsOnIsland = 0 := hdone.1
      exact absurd hz (by omega)
    · exact hb1sums.1
    · exact hb1sums.2.1
    · exact hb1sums.2.2
    · exact hSt1
  have hGC2 : GoodCommit
      { phase := Phase.KID_BACK, start := Loc.MAINLAND, driverIdx := w, driverAtGrant := q2,
        passengerIdx := none, passengerAtGrant := none,
        boarded := b1.boardedCount + 1, pre := b1, post := b2 } := by
    unfold GoodCommit
    refine ⟨hq2lt, by simp, fun _ => hq2kid, by simp, by simp, by simp, by simp, ?_, by simp,
      ?_, hb2sums.1, hb2sums.2.1, hb2sums.2.2, hSt2⟩
    · intro _
      rw [hb1rest.2.2.2]
    · intro hdone
      have hz : b1.adultsOnIsland = 0 := hdone.1
      rw [hb1adults] at hz
      exact absurd hz (by omega)
  -- step 3: an adult crosses with a child driving
  rcases h3a : find_person ps2 true Loc.ISLAND false with _ | ad
  · rcases h3b : find_person ps2 false Loc.ISLAND false with _ | x3 <;>
      · simp only [adultCycle, h1, h2, hD1, hfindw, hD2, h3a, h3b]
        refine ⟨?_, ?_, hRoles2, hRows2, hb2rest.2.2.2, by simp⟩
        · intro r hr
          simp at hr
          rcases hr with hr | hr <;> subst hr
          · exact hGC1
          · exact hGC2
        · intro hst
          refine ⟨?_, hSt2 (hSt1 hst)⟩
          intro r hr
          simp at hr
          rcases hr with hr | hr <;> subst hr
          · exact ⟨hst, hSt1 hst⟩
          · exact ⟨hSt1 hst, hSt2 (hSt1 hst)⟩
  rcases h3b : find_person ps2 false Loc.ISLAND false with _ | x3
  · simp only [adultCycle, h1, h2, hD1, hfindw, hD2, h3a, h3b]
    refine ⟨?_, ?_, hRoles2, hRows2, hb2rest.2.2.2, by simp⟩
    · intro r hr
      simp at hr
      rcases hr with hr | hr <;> subst hr
      · exact hGC1
      · exact hGC2
    · intro hst
      refine ⟨?_, hSt2 (hSt1 hst)⟩
      intro r hr
      simp at hr
      rcases hr with hr | hr <;> subst hr
      · exact ⟨hst, hSt1 hst⟩
      · exact ⟨hSt1 hst, hSt2 (hSt1 hst)⟩
  -- the adult and the child driver of step 3
  obtain ⟨qa, hqaget2, hqaad, hqaisl, hqarole, -⟩ := find_person_sound _ _ _ _ _ h3a
  obtain ⟨q3, hq3get2, hq3kid, hq3isl, hq3role, -⟩ := find_person_sound _ _ _ _ _ h3b
  have hadw : ad ≠ w := by
    intro h
    subst h
    rw [hget2w] at hqaget2
    injection hqaget2 with hqq
    rw [← hqq] at hqaad
    simp [driverAfter, hq2kid] at hqaad
  have hadc1 : ad ≠ c1 := by
    intro h
    subst h
    rw [hget2o ad hadw, hget1c1] at hqaget2
    injection hqaget2 with hqq
    rw [← hqq] at hqaad
    simp [driverAfter, hdp1kid] at hqaad
  have hadc2 : ad ≠ c2 := by
    intro h
    subst h
    rw [hget2o ad hadw, hget1c2] at hqaget2
    injection hqaget2 with hqq
    rw [← hqq] at hqaad
    simp [passengerAfter, hpp2kid] at hqaad
  have hqagetS : s.people[ad]? = some qa := by
    rw [← hget1o ad hadc1 hadc2, ← hget2o ad hadw]
    exact hqaget2
  -- the child found for step 3 is exactly the returning child w
  have hwpass2 : passOnePred false Loc.ISLAND false (driverAfter Loc.MAINLAND q2) = true := by
    apply (passOnePred_iff _ _ _ _).mpr
    refine ⟨by simp [driverAfter, hq2kid], by simp [driverAfter, flipLoc], ?_, by simp, ?_⟩
    · simp [driverAfter]
    · simp [driverAfter, MAX_CONSECUTIVE]
      omega
  obtain ⟨i3, qq3, hfi3, hqq3get, hqq3p1, hmin3⟩ :=
    find_person_of_passOne ps2 false Loc.ISLAND false ⟨w, _, hget2w, hwpass2⟩
  rw [h3b] at hfi3
  injection hfi3 with hi3
  subst hi3
  have hx3w : x3 = w := by
    by_contra hne
    have hx3c1 : x3 ≠ c1 := by
      intro h
      by_cases hc1w : c1 = w
      · exact hne (h.trans hc1w)
      · subst h
        rw [hget2o x3 hne, hget1c1] at hq3get2
        injection hq3get2 with hqq
        rw [← hqq] at hq3isl
        simp [driverAfter, flipLoc] at hq3isl
    have hx3c2 : x3 ≠ c2 := by
      intro h
      by_cases hc2w : c2 = w
      · exact hne (h.trans hc2w)
      · subst h
        rw [hget2o x3 hne, hget1c2] at hq3get2
        injection hq3get2 with hqq
        rw [← hqq] at hq3isl
        simp [passengerAfter, flipLoc] at hq3isl
    have hq3getS : s.people[x3]? = some q3 := by
      rw [← hget1o x3 hx3c1 hx3c2, ← hget2o x3 hne]
      exact hq3get2
    have hwlt : w < x3 := hwfresh x3 q3 hq3getS hq3kid hq3isl hx3c1 hx3c2
    have hf := hmin3 w _ hwlt hget2w
    rw [hf] at hwpass2
    exact Bool.false_ne_true hwpass2
  have hx3w2 : w = x3 := hx3w.symm
  subst hx3w2
  rw [hget2w] at hq3get2
  injection hq3get2 with hq3eq
  -- dispatch of the ADULT_CROSS trip
  have hD3 := dispatch_pair_eq2 Phase.ADULT_CROSS b2 ps2 w ad
    (driverAfter Loc.MAINLAND q2) qa hget2w hqaget2 hadw
  rw [hb2loc] at hD3
  set ps3 := applyAt ad (passengerAfter Loc.ISLAND)
    (applyAt w (driverAfter Loc.ISLAND) ps2) with hps3def
  set b3 := pairBoatAfter b2 (driverAfter Loc.MAINLAND q2) qa with hb3def
  have hwad : w ≠ ad := fun h => hadw h.symm
  have hget3o : ∀ (j : Nat), j ≠ w → j ≠ ad → ps3[j]? = ps2[j]? := by
    intro j hj1 hj2
    rw [hps3def, applyAt_get_ne _ _ _ _ hj2, applyAt_get_ne _ _ _ _ hj1]
  have hget3w : ps3[w]? = some (driverAfter Loc.ISLAND (driverAfter Loc.MAINLAND q2)) := by
    rw [hps3def, applyAt_get_ne _ _ _ _ hwad, applyAt_get_self, hget2w]
    rfl
  have hget3ad : ps3[ad]? = some (passengerAfter Loc.ISLAND qa) := by
    rw [hps3def, applyAt_get_self, applyAt_get_ne _ _ _ _ hadw, hqaget2]
    rfl
  have hRoles3 : RolesClear ps3 := by
    rw [hps3def]
    exact RolesClear_update _ _ _
      (RolesClear_update _ _ _ hRoles2 (fun p => by simp [driverAfter]))
      (fun p => by simp [passengerAfter])
  have hq2lt1 : (driverAfter Loc.MAINLAND q2).consecutiveRows < MAX_CONSECUTIVE := by
    simp [driverAfter, MAX_CONSECUTIVE]
    omega
  have hRows3 : RowsBounded ps3 := by
    rw [hps3def]
    refine RowsBounded_update _ _ _ (RowsBounded_update _ _ _ hRows2 ?_) ?_
    · intro p hp
      rw [hget2w] at hp
      injection hp with hp
      subst hp
      exact driverAfter_rows_ok _ _ hq2lt1 (hRows2 w _ hget2w).2
    · intro p hp
      exact passengerAfter_rows_ok _ _
  have hb3loc : b3.location = Loc.MAINLAND := by
    rw [hb3def]
    have := (pairBoatAfter_base b2 (driverAfter Loc.MAINLAND q2) qa).1
    rw [hb2loc] at this
    simpa [flipLoc] using this
  have hb3rest := pairBoatAfter_base b2 (driverAfter Loc.MAINLAND q2) qa
  have hb3sums := pairBoatAfter_sums b2 (driverAfter Loc.MAINLAND q2) qa
  have hSt3 : statsOk b2 → statsOk b3 := by
    intro hst
    rw [hb3def]
    exact statsOk_next _ _ hb3sums.1 hb3sums.2.1 hb3sums.2.2 hst
  have hGC3 : GoodCommit
      { phase := Phase.ADULT_CROSS, start := Loc.ISLAND, driverIdx := w,
        driverAtGrant := driverAfter Loc.MAINLAND q2,
        passengerIdx := some ad, passengerAtGrant := some qa,
        boarded := b2.boardedCount + 2, pre := b2, post := b3 } := by
    unfold GoodCommit
    refine ⟨hq2lt1, ?_, by simp [driverAfter, hq2kid], ?_, by simp, by simp, by simp, by simp,
      ?_, ?_, hb3sums.1, hb3sums.2.1, hb3sums.2.2, hSt3⟩
    · intro hA
      simp [driverAfter, hq2kid] at hA
    · intro _
      exact ⟨by simp [driverAfter, hq2kid], qa, rfl, hqaad⟩
    · intro _
      rw [hb2rest.2.2.2]
    · intro hdone
      have hz : b2.adultsOnIsland = 0 := hdone.1
      rw [hb2adults] at hz
      exact absurd hz (by omega)
  -- step 4: the child comes back again; the finder picks w once more
  have hwpass3 : passOnePred false Loc.MAINLAND false
      (driverAfter Loc.ISLAND (driverAfter Loc.MAINLAND q2)) = true := by
    apply (passOnePred_iff _ _ _ _).mpr
    refine ⟨by simp [driverAfter, hq2kid], by simp [driverAfter, flipLoc], ?_, by simp, ?_⟩
    · simp [driverAfter]
    · simp [driverAfter, MAX_CONSECUTIVE]
      omega
  obtain ⟨v, q4, hfv, hq4get, hq4p1, hmin4⟩ :=
    find_person_of_passOne ps3 false Loc.MAINLAND false ⟨w, _, hget3w, hwpass3⟩
  have hq4iff := (passOnePred_iff _ _ _ _).mp hq4p1
  have hvw : v = w := by
    rcases Nat.lt_trichotomy v w with hlt | heq | hgt
    · exfalso
      have hvad : v ≠ ad := by
        intro h
        subst h
        rw [hget3ad] at hq4get
        injection hq4get with hqq
        rw [← hqq] at hq4iff
        simp [passengerAfter, hqaad] at hq4iff
      have hv1 : ps3[v]? = ps1[v]? := by
        rw [hget3o v (by omega) hvad, hget2o v (by omega)]
      rw [hv1] at hq4get
      have := hmin2 v q4 hlt hq4get
      rw [this] at hq4p1
      exact Bool.false_ne_true hq4p1
    · exact heq
    · exfalso
      have := hmin4 w _ hgt hget3w
      rw [this] at hwpass3
      exact Bool.false_ne_true hwpass3
  have hvw2 : w = v := hvw.symm
  subst hvw2
  rw [hget3w] at hq4get
  injection hq4get with hq4eq
  -- dispatch of the KID_BACK2 trip
  have hD4 := dispatch_solo_eq2 Phase.KID_BACK2 b3 ps3 w
    (driverAfter Loc.ISLAND (driverAfter Loc.MAINLAND q2)) hget3w
  rw [hb3loc] at hD4
  set ps4 := applyAt w (driverAfter Loc.MAINLAND) ps3 with hps4def
  set b4 := soloBoatAfter b3 (driverAfter Loc.ISLAND (driverAfter Loc.MAINLAND q2)) with hb4def
  have hget4o : ∀ (j : Nat), j ≠ w → ps4[j]? = ps3[j]? := by
    intro j hj
    rw [hps4def, applyAt_get_ne _ _ _ _ hj]
  have hget4w : ps4[w]? = some (driverAfter Loc.MAINLAND
      (driverAfter Loc.ISLAND (driverAfter Loc.MAINLAND q2))) := by
    rw [hps4def, applyAt_get_self, hget3w]
    rfl
  have hq2lt2 : (driverAfter Loc.ISLAND
      (driverAfter Loc.MAINLAND q2)).consecutiveRows < MAX_CONSECUTIVE := by
    simp [driverAfter, MAX_CONSECUTIVE]
    omega
  have hRoles4 : RolesClear ps4 := by
    rw [hps4def]
    exact RolesClear_update _ _ _ hRoles3 (fun p => by simp [driverAfter])
  have hRows4 : RowsBounded ps4 := by
    rw [hps4def]
    refine RowsBounded_update _ _ _ hRows3 ?_
    intro p hp
    rw [hget3w] at hp
    injection hp with hp
    subst hp
    exact driverAfter_rows_ok _ _ hq2lt2 (hRows3 w _ hget3w).2
  have hb4loc : b4.location = Loc.ISLAND := by
    rw [hb4def]
    have := (soloBoatAfter_base b3 (driverAfter Loc.ISLAND (driverAfter Loc.MAINLAND q2))).1
    rw [hb3loc] at this
    simpa [flipLoc] using this
  have hb4rest := soloBoatAfter_base b3 (driverAfter Loc.ISLAND (driverAfter Loc.MAINLAND q2))
  have hb4sums := soloBoatAfter_sums b3 (driverAfter Loc.ISLAND (driverAfter Loc.MAINLAND q2))
  have hSt4 : statsOk b3 → statsOk b4 := by
    intro hst
    rw [hb4def]
    exact statsOk_next _ _ hb4sums.1 hb4sums.2.1 hb4sums.2.2 hst
  have hGC4 : GoodCommit
      { phase := Phase.KID_BACK2, start := Loc.MAINLAND, driverIdx := w,
        driverAtGrant := driverAfter Loc.ISLAND (driverAfter Loc.MAINLAND q2),
        passengerIdx := none, passengerAtGrant := none,
        boarded := b3.boardedCount + 1, pre := b3, post := b4 } := by
    unfold GoodCommit
    refine ⟨hq2lt2, by simp, fun _ => by simp [driverAfter, hq2kid], by simp, by simp, by simp,
      by simp, ?_, by simp, fun _ => rfl,
      hb4sums.1, hb4sums.2.1, hb4sums.2.2, hSt4⟩
    intro _
    rw [hb3rest.2.2.2]
  -- classification of the final population
  have hclass : ∀ (j : Nat) (p : Person), ps4[j]? = some p →
      (j = w ∧ p = driverAfter Loc.MAINLAND
        (driverAfter Loc.ISLAND (driverAfter Loc.MAINLAND q2))) ∨
      (j = ad ∧ p = passengerAfter Loc.ISLAND qa) ∨
      (j = c1 ∧ j ≠ w ∧ p = driverAfter Loc.ISLAND dp1) ∨
      (j = c2 ∧ j ≠ w ∧ p = passengerAfter Loc.ISLAND pp2) ∨
      (j ≠ w ∧ j ≠ ad ∧ j ≠ c1 ∧ j ≠ c2 ∧ s.people[j]? = some p) := by
    intro j p hget
    by_cases hjw : j = w
    · subst hjw
      rw [hget4w] at hget
      injection hget with hget
      exact Or.inl ⟨rfl, hget.symm⟩
    rw [hget4o j hjw] at hget
    by_cases hjad : j = ad
    · subst hjad
      rw [hget3ad] at hget
      injection hget with hget
      exact Or.inr (Or.inl ⟨rfl, hget.symm⟩)
    rw [hget3o j hjw hjad, hget2o j hjw] at hget
    by_cases hjc1 : j = c1
    · subst hjc1
      rw [hget1c1] at hget
      injection hget with hget
      exact Or.inr (Or.inr (Or.inl ⟨rfl, hjw, hget.symm⟩))
    by_cases hjc2 : j = c2
    · subst hjc2
      rw [hget1c2] at hget
      injection hget with hget
      exact Or.inr (Or.inr (Or.inr (Or.inl ⟨rfl, hjw, hget.symm⟩)))
    · rw [hget1o j hjc1 hjc2] at hget
      exact Or.inr (Or.inr (Or.inr (Or.inr ⟨hjw, hjad, hjc1, hjc2, hget⟩)))
  -- the head invariant holds again at the end of the cycle
  have hAF4 : AdultsFresh ps4 := by
    intro j p hget hA
    rcases hclass j p hget with ⟨_, hp⟩ | ⟨_, hp⟩ | ⟨_, _, hp⟩ | ⟨_, _, hp⟩ |
      ⟨_, _, _, _, hS⟩
    · subst hp; simp [driverAfter, hq2kid] at hA
    · subst hp; simp [passengerAfter]
    · subst hp; simp [driverAfter, hdp1kid] at hA
    · subst hp; simp [passengerAfter, hpp2kid] at hA
    · exact hAF j p hS hA
  have hIK4 : IslandKidRows ps4 := by
    intro j p hget hkid hpos
    rcases hclass j p hget with ⟨_, hp⟩ | ⟨_, hp⟩ | ⟨_, _, hp⟩ | ⟨_, _, hp⟩ |
      ⟨hw', had', hc1', hc2', hS⟩
    · subst hp
      rcases hq2rows with h | h <;> simp [driverAfter, h]
    · subst hp; simp [passengerAfter, hqaad] at hkid
    · subst hp; simp [driverAfter, flipLoc] at hpos
    · subst hp; simp [passengerAfter, flipLoc] at hpos
    · exact Or.inl (hfresh j p hS hkid hpos hc1' hc2').1
  have hAU4 : ActiveUnique ps4 := by
    intro i p hget hkid hpos hne0
    have hiw : i = w := by
      rcases hclass i p hget with ⟨h, _⟩ | ⟨_, hp⟩ | ⟨_, _, hp⟩ | ⟨_, _, hp⟩ |
        ⟨_, _, hc1', hc2', hS⟩
      · exact h
      · subst hp; simp [passengerAfter, hqaad] at hkid
      · subst hp; simp [driverAfter, flipLoc] at hpos
      · subst hp; simp [passengerAfter, flipLoc] at hpos
      · exact absurd (hfresh i p hS hkid hpos hc1' hc2').1 hne0
    subst hiw
    intro j q hqget hqkid hqpos hji
    rcases hclass j q hqget with ⟨h, _⟩ | ⟨_, hq⟩ | ⟨_, _, hq⟩ | ⟨_, _, hq⟩ |
      ⟨hw', _, hc1', hc2', hS⟩
    · exact absurd h hji
    · subst hq; simp [passengerAfter, hqaad] at hqkid
    · subst hq; simp [driverAfter, flipLoc] at hqpos
    · subst hq; simp [passengerAfter, flipLoc] at hqpos
    · exact ⟨(hfresh j q hS hqkid hqpos hc1' hc2').1,
        Nat.lt_of_le_of_ne (Nat.le_of_lt_succ (Nat.lt_succ_of_lt
          (hwfresh j q hS hqkid hqpos hc1' hc2'))) (fun h => hji h.symm)⟩
  have hMK4 : MainlandKidRows ps4 := by
    intro j p hget hkid hpos
    rcases hclass j p hget with ⟨_, hp⟩ | ⟨_, hp⟩ | ⟨_, _, hp⟩ | ⟨_, _, hp⟩ |
      ⟨_, _, _, _, hS⟩
    · subst hp; simp [driverAfter, flipLoc] at hpos
    · subst hp; simp [passengerAfter, hqaad] at hkid
    · subst hp
      rcases hdp1mem with h | h <;> simp [driverAfter, h]
    · subst hp; simp [passengerAfter]
    · exact hMK j p hS hkid hpos
  have hFA4 : FreshAboveMainland ps4 := by
    intro i p hget hkid hpos h0
    have hcls := hclass i p hget
    rcases hcls with ⟨_, hp⟩ | ⟨_, hp⟩ | ⟨_, _, hp⟩ | ⟨_, _, hp⟩ |
      ⟨hiw, hiad, hic1, hic2, hS⟩
    · subst hp
      exfalso
      simp [driverAfter] at h0
    · subst hp; simp [passengerAfter, hqaad] at hkid
    · subst hp; simp [driverAfter, flipLoc] at hpos
    · subst hp; simp [passengerAfter, flipLoc] at hpos
    · intro j q hqget hqkid hqpos
      obtain ⟨-, hic1lt, hic2lt⟩ := hfresh i p hS hkid hpos hic1 hic2
      rcases hclass j q hqget with ⟨hj, hq⟩ | ⟨_, hq⟩ | ⟨hj, _, _⟩ | ⟨hj, _, _⟩ |
        ⟨_, _, _, _, hSq⟩
      · subst hj hq
        simp [driverAfter, flipLoc] at hqpos
      · subst hq; simp [passengerAfter, hqaad] at hqkid
      · subst hj; omega
      · subst hj; omega
      · exact hFA i p hS hkid hpos h0 j q hSq hqkid hqpos
  -- reduce the goal and discharge it
  simp only [adultCycle, h1, h2, hD1, hfindw, hD2, h3a, h3b, hD3, hfv, hD4]
  refine ⟨?_, ?_, hRoles4, hRows4, hb4rest.2.2.2, fun _ => ?_⟩
  · intro r hr
    simp at hr
    rcases hr with hr | hr | hr | hr <;> subst hr
    · exact hGC1
    · exact hGC2
    · exact hGC3
    · exact hGC4
  · intro hst
    refine ⟨?_, hSt4 (hSt3 (hSt2 (hSt1 hst)))⟩
    intro r hr
    simp at hr
    rcases hr with hr | hr | hr | hr <;> subst hr
    · exact ⟨hst, hSt1 hst⟩
    · exact ⟨hSt1 hst, hSt2 (hSt1 hst)⟩
    · exact ⟨hSt2 (hSt1 hst), hSt3 (hSt2 (hSt1 hst))⟩
    · exact ⟨hSt3 (hSt2 (hSt1 hst)), hSt4 (hSt3 (hSt2 (hSt1 hst)))⟩
  · exact ⟨hb4loc, hRoles4, hRows4, hAF4, hIK4, hAU4, hMK4, hFA4⟩


theorem drainStep_spec (s : Sim) (hR : RolesClear s.people) (hB : RowsBounded s.people)
    (hbc : s.boat.boardedCount = 0) (hkids : 0 < s.boat.childrenOnIsland) :
    (∀ r ∈ (drainStep s).2.1, GoodCommit r) ∧
    (statsOk s.boat →
      (∀ r ∈ (drainStep s).2.1, statsOk r.pre ∧ statsOk r.post) ∧
        statsOk (drainStep s).1.boat) ∧
    RolesClear (drainStep s).1.people ∧ RowsBounded (drainStep s).1.people ∧
    (drainStep s).1.boat.boardedCount = 0 := by
  have hgrant : ∀ (i : Nat), find_person s.people false Loc.ISLAND true = some i →
      ∃ p, s.people[i]? = some p ∧ p.isAdult = false ∧ p.role = Role.NONE ∧
        p.consecutiveRows < MAX_CONSECUTIVE := by
    intro i hi
    obtain ⟨p, hget, hkid, hpos, hrole, hnb⟩ := find_person_sound _ _ _ _ _ hi
    have hb := hB i p hget
    have hnb' := hnb rfl
    refine ⟨p, hget, hkid, hrole, ?_⟩
    rcases Nat.lt_or_ge p.consecutiveRows MAX_CONSECUTIVE with h | h
    · exact h
    · exfalso
      have h4 : p.consecutiveRows = MAX_CONSECUTIVE := by omega
      have := hb.2.mpr h4
      rw [hnb'] at this
      exact Bool.false_ne_true this
  by_cases h2k : 2 ≤ s.boat.childrenOnIsland
  · rcases hf1 : find_person s.people false Loc.ISLAND true with _ | c1
    · simp only [drainStep, if_pos h2k, hf1]
      exact ⟨by simp, fun hst => ⟨by simp, hst⟩, hR, hB, hbc⟩
    rcases hf2 : findSecondChild s.people c1 with _ | c2
    · simp only [drainStep, if_pos h2k, hf1, hf2]
      exact ⟨by simp, fun hst => ⟨by simp, hst⟩, hR, hB, hbc⟩
    obtain ⟨dp, hdpget, hdpkid, hdprole, hdplt⟩ := hgrant c1 hf1
    obtain ⟨pp, hppget, hppkid, hppisl, hpprole, hc2ne⟩ := findSecondChild_sound _ _ _ hf2
    have hD := dispatch_pair_eq Phase.KIDS_FINISH s c1 c2 dp pp hdpget hppget hc2ne
    have hsums := pairBoatAfter_sums s.boat dp pp
    have hSt : statsOk s.boat → statsOk (pairBoatAfter s.boat dp pp) :=
      fun hst => statsOk_next _ _ hsums.1 hsums.2.1 hsums.2.2 hst
    have hGC : GoodCommit
        { phase := Phase.KIDS_FINISH, start := s.boat.location, driverIdx := c1,
          driverAtGrant := dp, passengerIdx := some c2, passengerAtGrant := some pp,
          boarded := s.boat.boardedCount + 2, pre := s.boat,
          post := pairBoatAfter s.boat dp pp } := by
      unfold GoodCommit
      refine ⟨hdplt, ?_, fun _ => hdpkid, by simp, by simp, by simp, ?_, by simp, ?_, ?_,
        hsums.1, hsums.2.1, hsums.2.2, hSt⟩
      · intro hA
        rw [hdpkid] at hA
        exact absurd hA (by simp)
      · intro _ q hq
        injection hq with hq
        rw [← hq]
        exact hppkid
      · intro _
        rw [hbc]
      · intro hdone
        have hz : s.boat.childrenOnIsland = 0 := hdone.2
        exact absurd hz (by omega)
    simp only [drainStep, if_pos h2k, hf1, hf2, hD]
    refine ⟨?_, ?_, ?_, ?_, ?_⟩
    · intro r hr
      simp at hr
      subst hr
      exact hGC
    · intro hst
      refine ⟨?_, hSt hst⟩
      intro r hr
      simp at hr
      subst hr
      exact ⟨hst, hSt hst⟩
    · exact RolesClear_update _ _ _
        (RolesClear_update _ _ _ hR (fun p => by simp [driverAfter]))
        (fun p => by simp [passengerAfter])
    · refine RowsBounded_update _ _ _ (RowsBounded_update _ _ _ hB ?_) ?_
      · intro p hp
        rw [hdpget] at hp
        injection hp with hp
        subst hp
        exact driverAfter_rows_ok _ _ hdplt (hB c1 dp hdpget).2
      · intro p hp
        exact passengerAfter_rows_ok _ _
    · exact (pairBoatAfter_base s.boat dp pp).2.2.2
  · rcases hf1 : find_person s.people false Loc.ISLAND true with _ | c
    · simp only [drainStep, if_neg h2k, hf1]
      exact ⟨by simp, fun hst => ⟨by simp, hst⟩, hR, hB, hbc⟩
    obtain ⟨dp, hdpget, hdpkid, hdprole, hdplt⟩ := hgrant c hf1
    have hD := dispatch_solo_eq Phase.KIDS_FINISH s c dp hdpget
    have hsums := soloBoatAfter_sums s.boat dp
    have hSt : statsOk s.boat → statsOk (soloBoatAfter s.boat dp) :=
      fun hst => statsOk_next _ _ hsums.1 hsums.2.1 hsums.2.2 hst
    have hGC : GoodCommit
        { phase := Phase.KIDS_FINISH, start := s.boat.location, driverIdx := c,
          driverAtGrant := dp, passengerIdx := none, passengerAtGrant := none,
          boarded := s.boat.boardedCount + 1, pre := s.boat,
          post := soloBoatAfter s.boat dp } := by
      unfold GoodCommit
      refine ⟨hdplt, by simp, fun _ => hdpkid, by simp, by simp, by simp, by simp, ?_, by simp,
        ?_, hsums.1, hsums.2.1, hsums.2.2, hSt⟩
      · intro _
        rw [hbc]
      · intro hdone
        have hz : s.boat.childrenOnIsland = 0 := hdone.2
        exact absurd hz (by omega)
    simp only [drainStep, if_neg h2k, hf1, hD]
    refine ⟨?_, ?_, ?_, ?_, ?_⟩
    · intro r hr
      simp at hr
      subst hr
      exact hGC
    · intro hst
      refine ⟨?_, hSt hst⟩
      intro r hr
      simp at hr
      subst hr
      exact ⟨hst, hSt hst⟩
    · exact RolesClear_update _ _ _ hR (fun p => by simp [driverAfter])
    · refine RowsBounded_update _ _ _ hB ?_
      intro p hp
      rw [hdpget] at hp
      injection hp with hp
      subst hp
      exact driverAfter_rows_ok _ _ hdplt (hB c dp hdpget).2
    · exact (soloBoatAfter_base s.boat dp).2.2.2

theorem drainLoop_spec : ∀ (fuel : Nat) (s : Sim), RolesClear s.people → RowsBounded s.people →
    s.boat.boardedCount = 0 →
    (∀ r ∈ (drainLoop fuel s).2, GoodCommit r) ∧
    (statsOk s.boat →
      (∀ r ∈ (drainLoop fuel s).2, statsOk r.pre ∧ statsOk r.post) ∧
        statsOk (drainLoop fuel s).1.boat) ∧
    RowsBounded (drainLoop fuel s).1.people := by
  intro fuel
  induction fuel with
  | zero =>
    intro s hR hB hbc
    exact ⟨by simp [drainLoop], fun hst => ⟨by simp [drainLoop], by simp [drainLoop, hst]⟩,
      by simpa [drainLoop] using hB⟩
  | succ fuel ih =>
    intro s hR hB hbc
    by_cases hk : 0 < s.boat.childrenOnIsland
    · obtain ⟨hgc, hstats, hR', hB', hbc'⟩ := drainStep_spec s hR hB hbc hk
      rcases hds : drainStep s with ⟨s', cs, cont⟩
      rw [hds] at hgc hstats hR' hB' hbc'
      cases cont
      · simp only [drainLoop, if_pos hk, hds]
        exact ⟨hgc, hstats, hB'⟩
      · obtain ⟨hgc2, hstats2, hB2⟩ := ih s' hR' hB' hbc'
        simp only [drainLoop, if_pos hk, hds]
        refine ⟨?_, ?_, hB2⟩
        · intro r hr
          rw [List.mem_append] at hr
          rcases hr with hr | hr
          · exact hgc r hr
          · exact hgc2 r hr
        · intro hst
          obtain ⟨hin, hfin⟩ := hstats hst
          obtain ⟨hin2, hfin2⟩ := hstats2 hfin
          refine ⟨?_, hfin2⟩
          intro r hr
          rw [List.mem_append] at hr
          rcases hr with hr | hr
          · exact hin r hr
          · exact hin2 r hr
    · simp only [drainLoop, if_neg hk]
      exact ⟨by simp, fun hst => ⟨by simp, hst⟩, hB⟩

theorem mainLoop_spec : ∀ (fuel : Nat) (s : Sim), HeadInv s → s.boat.boardedCount = 0 →
    (∀ r ∈ (mainLoop fuel s).2, GoodCommit r) ∧
    (statsOk s.boat →
      (∀ r ∈ (mainLoop fuel s).2, statsOk r.pre ∧ statsOk r.post) ∧
        statsOk (mainLoop fuel s).1.boat) ∧
    RolesClear (mainLoop fuel s).1.people ∧ RowsBounded (mainLoop fuel s).1.people ∧
    (mainLoop fuel s).1.boat.boardedCount = 0 := by
  intro fuel
  induction fuel with
  | zero =>
    intro s hInv hbc
    exact ⟨by simp [mainLoop], fun hst => ⟨by simp [mainLoop], by simp [mainLoop, hst]⟩,
      by simpa [mainLoop] using hInv.2.1, by simpa [mainLoop] using hInv.2.2.1,
      by simpa [mainLoop] using hbc⟩
  | succ fuel ih =>
    intro s hInv hbc
    by_cases hA : 0 < s.boat.adultsOnIsland
    · obtain ⟨hgc, hstats, hR', hB', hbc', hcont⟩ := adultCycle_spec s hInv hbc hA
      rcases hac : adultCycle s with ⟨s', cs, cont⟩
      rw [hac] at hgc hstats hR' hB' hbc' hcont
      cases cont
      · simp only [mainLoop, if_pos hA, hac]
        exact ⟨hgc, hstats, hR', hB', hbc'⟩
      · have hInv' : HeadInv s' := hcont rfl
        obtain ⟨hgc2, hstats2, hR2, hB2, hbc2⟩ := ih s' hInv' hbc'
        simp only [mainLoop, if_pos hA, hac]
        refine ⟨?_, ?_, hR2, hB2, hbc2⟩
        · intro r hr
          rw [List.mem_append] at hr
          rcases hr with hr | hr
          · exact hgc r hr
          · exact hgc2 r hr
        · intro hst
          obtain ⟨hin, hfin⟩ := hstats hst
          obtain ⟨hin2, hfin2⟩ := hstats2 hfin
          refine ⟨?_, hfin2⟩
          intro r hr
          rw [List.mem_append] at hr
          rcases hr with hr | hr
          · exact hin r hr
          · exact hin2 r hr
    · simp only [mainLoop, if_neg hA]
      exact ⟨by simp, fun hst => ⟨by simp, hst⟩, hInv.2.1, hInv.2.2.1, hbc⟩


theorem init_people_fields (A C : Nat) : ∀ (i : Nat) (p : Person),
    (init_people A C)[i]? = some p →
    p.position = Loc.ISLAND ∧ p.consecutiveRows = 0 ∧ p.role = Role.NONE ∧
      p.needsBreak = false := by
  intro i p hget
  have hm : p ∈ init_people A C := by
    have hi : i < (init_people A C).length := by
      by_contra hle
      rw [List.getElem?_eq_none (by omega)] at hget
      exact Option.noConfusion hget
    rw [List.getElem?_eq_getElem hi] at hget
    injection hget with hget
    rw [← hget]
    exact List.getElem_mem hi
  unfold init_people at hm
  rw [List.mem_append] at hm
  rcases hm with hm | hm <;>
    · rw [List.mem_map] at hm
      obtain ⟨j, -, hj⟩ := hm
      rw [← hj]
      exact ⟨rfl, rfl, rfl, rfl⟩

theorem initSim_inv (A C : Nat) : HeadInv (initSim A C) := by
  have hfields := init_people_fields A C
  have hpeople : (initSim A C).people = init_people A C := rfl
  refine ⟨rfl, ?_, ?_, ?_, ?_, ?_, ?_, ?_⟩
  · intro i p hget
    exact (hfields i p hget).2.2.1
  · intro i p hget
    have := (hfields i p hget).2.1
    constructor
    · rw [this]; simp [MAX_CONSECUTIVE]
    · rw [(hfields i p hget).2.2.2, this]
      simp [MAX_CONSECUTIVE]
  · intro i p hget _
    exact (hfields i p hget).2.1
  · intro i p hget _ _
    exact Or.inl (hfields i p hget).2.1
  · intro i p hget _ _ hne0
    exact absurd (hfields i p hget).2.1 hne0
  · intro i p hget _ hpos
    rw [(hfields i p hget).1] at hpos
    exact absurd hpos (by simp)
  · intro i p hget _ _ _ j q hqget _ hqpos
    rw [(hfields j q hqget).1] at hqpos
    exact absurd hqpos (by simp)

theorem controllerRun_spec (A C fuel : Nat) :
    (∀ r ∈ (controllerRun A C fuel).2, GoodCommit r) ∧
    (∀ r ∈ (controllerRun A C fuel).2, statsOk r.pre ∧ statsOk r.post) ∧
    statsOk (controllerRun A C fuel).1.boat ∧
    RowsBounded (controllerRun A C fuel).1.people := by
  have hInv := initSim_inv A C
  have hbc : (initSim A C).boat.boardedCount = 0 := rfl
  have hst0 : statsOk (initSim A C).boat := ⟨rfl, rfl⟩
  obtain ⟨hgc1, hstats1, hR1, hB1, hbc1⟩ := mainLoop_spec fuel (initSim A C) hInv hbc
  obtain ⟨hin1, hfin1⟩ := hstats1 hst0
  obtain ⟨hgc2, hstats2, hB2⟩ :=
    drainLoop_spec fuel (mainLoop fuel (initSim A C)).1 hR1 hB1 hbc1
  obtain ⟨hin2, hfin2⟩ := hstats2 hfin1
  have heq : controllerRun A C fuel =
      ((drainLoop fuel (mainLoop fuel (initSim A C)).1).1,
        (mainLoop fuel (initSim A C)).2 ++ (drainLoop fuel (mainLoop fuel (initSim A C)).1).2) :=
    rfl
  rw [heq]
  refine ⟨?_, ?_, hfin2, hB2⟩
  · intro r hr
    rw [List.mem_append] at hr
    rcases hr with hr | hr
    · exact hgc1 r hr
    · exact hgc2 r hr
  · intro r hr
    rw [List.mem_append] at hr
    rcases hr with hr | hr
    · exact hin1 r hr
    · exact hin2 r hr


theorem mem_of_getElemOpt {α : Type} (l : List α) (i : Nat) {a : α}
    (h : l[i]? = some a) : a ∈ l := by
  induction l generalizing i with
  | nil => simp at h
  | cons x xs ih =>
    cases i with
    | zero =>
      simp only [List.getElem?_cons_zero, Option.some.injEq] at h
      exact h ▸ List.mem_cons_self x xs
    | succ n =>
      exact List.mem_cons_of_mem x (ih n (by simpa using h))


theorem parse_args_none_iff (args : List (Option Int)) :
    parse_args args = none ↔ badArgs args := by
  rcases args with _ | ⟨a, _ | ⟨b, _ | ⟨c, rest⟩⟩⟩
  · simp [parse_args, badArgs]
  · simp [parse_args, badArgs]
  · rcases a with _ | A
    · simp [parse_args, badArgs]
    rcases b with _ | C
    · simp [parse_args, badArgs]
    · constructor
      · intro h
        simp only [parse_args] at h
        unfold badArgs
        refine Or.inr (Or.inr ⟨A, C, rfl, ?_⟩)
        split_ifs at h with h1 h2 h3
        all_goals omega
      · intro h
        rcases h with h | h | ⟨A2, C2, heq, h⟩
        · simp at h
        · simp at h
        · injection heq with h1 h2
          injection h1 with h1
          injection h2 with h2
          injection h2 with h2
          subst h1
          subst h2
          simp only [parse_args]
          split_ifs with g1 g2 g3 <;> first | rfl | omega
  · simp [parse_args, badArgs]

theorem moveOne_boat (st : Loc) (s : Sim) (oi : Option Nat) :
    (moveOne st s oi).boat.location = s.boat.location ∧
    (moveOne st s oi).boat.driver = s.boat.driver ∧
    (moveOne st s oi).boat.passenger = s.boat.passenger := by
  rcases oi with _ | i
  · exact ⟨rfl, rfl, rfl⟩
  · rcases hg : s.people[i]? with _ | p
    · simp [moveOne, hg]
    · by_cases h : st = Loc.ISLAND <;> by_cases h2 : p.isAdult = true <;>
        simp [moveOne, hg, h, h2]

theorem tripFinish_location (start : Loc) (s : Sim) :
    (tripFinish start s).boat.location = s.boat.location := by
  have hm1 := moveOne_boat start s s.boat.driver
  have hm2 := moveOne_boat start (moveOne start s s.boat.driver) s.boat.passenger
  unfold tripFinish
  rcases hd : s.boat.driver with _ | di <;> rcases hp : s.boat.passenger with _ | pi <;>
    rw [hd, hp] at hm1 hm2 <;>
    simp only [hd, hp] <;>
    split_ifs <;>
    simp only [] <;>
    rw [hm2.1, hm1.1]


/-- C1: at every trip commit the boat carries exactly one or two persons, and the
driver and the passenger are never both adults. -/
theorem claimC1 (A C fuel : Nat) (r : Commit) (hr : r ∈ (controllerRun A C fuel).2) :
    (r.boarded = 1 ∨ r.boarded = 2) ∧
    ¬(r.driverAtGrant.isAdult = true ∧
        ∃ q, r.passengerAtGrant = some q ∧ q.isAdult = true) := by
  obtain ⟨hg, hAonly, hkids, hac, hkb, hko, hkf, hbn, hbs, hdone, h11, h12, h13, h14⟩ :=
    (controllerRun_spec A C fuel).1 r hr
  constructor
  · rcases hq : r.passengerAtGrant with _ | q
    · exact Or.inl (hbn hq)
    · exact Or.inr (hbs (by rw [hq]; exact fun h => Option.noConfusion h))
  · rintro ⟨hA, q, hq, -⟩
    rw [hAonly hA] at hq
    exact Option.noConfusion hq

theorem claimC1_witness :
    (witnessCommitA.boarded = 1 ∨ witnessCommitA.boarded = 2) ∧
    ¬(witnessCommitA.driverAtGrant.isAdult = true ∧
        ∃ q, witnessCommitA.passengerAtGrant = some q ∧ q.isAdult = true) :=
  claimC1 1 2 10 witnessCommitA
    (mem_of_getElemOpt (controllerRun 1 2 10).2 0 (by decide))

/-- C2: every grant of the driver role happens with the driver's consecutive-drive
counter strictly below MAX_CONSECUTIVE (4), and no counter ever exceeds 4. -/
theorem claimC2 (A C fuel : Nat) :
    (∀ r ∈ (controllerRun A C fuel).2,
      r.driverAtGrant.consecutiveRows < MAX_CONSECUTIVE) ∧
    (∀ (i : Nat) (p : Person), (controllerRun A C fuel).1.people[i]? = some p →
      p.consecutiveRows ≤ MAX_CONSECUTIVE) :=
  ⟨fun r hr => ((controllerRun_spec A C fuel).1 r hr).1,
   fun i p hp => ((controllerRun_spec A C fuel).2.2.2 i p hp).1⟩

theorem claimC2_witness :
    witnessCommitB ∈ (controllerRun 2 3 50).2 ∧
    witnessCommitB.driverAtGrant.consecutiveRows < MAX_CONSECUTIVE :=
  have hm : witnessCommitB ∈ (controllerRun 2 3 50).2 :=
    mem_of_getElemOpt (controllerRun 2 3 50).2 7 (by decide)
  ⟨hm, (claimC2 2 3 50).1 witnessCommitB hm⟩

/-- C3 (amended): every trip's riders satisfy the phase's category rule — the three
child phases and the drain carry only children, ADULT_CROSS has a child driver and
an adult passenger — but a KIDS_FINISH trip may be dispatched while the boat is on
the mainland. -/
theorem claimC3 (A C fuel : Nat) (r : Commit) (hr : r ∈ (controllerRun A C fuel).2) :
    (r.phase = Phase.KIDS_OUT → r.driverAtGrant.isAdult = false ∧
      ∃ q, r.passengerAtGrant = some q ∧ q.isAdult = false) ∧
    ((r.phase = Phase.KID_BACK ∨ r.phase = Phase.KID_BACK2) →
      r.driverAtGrant.isAdult = false ∧ r.passengerAtGrant = none) ∧
    (r.phase = Phase.ADULT_CROSS → r.driverAtGrant.isAdult = false ∧
      ∃ q, r.passengerAtGrant = some q ∧ q.isAdult = true) ∧
    (r.phase = Phase.KIDS_FINISH → r.driverAtGrant.isAdult = false ∧
      ∀ q, r.passengerAtGrant = some q → q.isAdult = false) := by
  obtain ⟨hg, hAonly, hkids, hac, hkb, hko, hkf, hbn, hbs, hdone, h11, h12, h13, h14⟩ :=
    (controllerRun_spec A C fuel).1 r hr
  refine ⟨fun h => ⟨hkids (Or.inl h), hko h⟩, fun h => ⟨?_, hkb h⟩, hac,
    fun h => ⟨hkids (Or.inr (Or.inr (Or.inr h))), hkf h⟩⟩
  rcases h with h | h
  · exact hkids (Or.inr (Or.inl h))
  · exact hkids (Or.inr (Or.inr (Or.inl h)))

theorem claimC3_counterexample :
    ((controllerRun 1 4 50).2[5]?).map (fun r => (r.phase, r.start))
      = some (Phase.KIDS_FINISH, Loc.MAINLAND) := by
  decide

theorem claimC3_witness :
    (witnessCommitA.phase = Phase.KIDS_OUT →
      witnessCommitA.driverAtGrant.isAdult = false ∧
      ∃ q, witnessCommitA.passengerAtGrant = some q ∧ q.isAdult = false) ∧
    ((witnessCommitA.phase = Phase.KID_BACK ∨ witnessCommitA.phase = Phase.KID_BACK2) →
      witnessCommitA.driverAtGrant.isAdult = false ∧
      witnessCommitA.passengerAtGrant = none) ∧
    (witnessCommitA.phase = Phase.ADULT_CROSS →
      witnessCommitA.driverAtGrant.isAdult = false ∧
      ∃ q, witnessCommitA.passengerAtGrant = some q ∧ q.isAdult = true) ∧
    (witnessCommitA.phase = Phase.KIDS_FINISH →
      witnessCommitA.driverAtGrant.isAdult = false ∧
      ∀ q, witnessCommitA.passengerAtGrant = some q → q.isAdult = false) :=
  claimC3 1 2 10 witnessCommitA
    (mem_of_getElemOpt (controllerRun 1 2 10).2 0 (by decide))

/-- C7 (amended): once the termination predicate is true before a trip, that trip can
only be the cycle's final child-return (KID_BACK2); the code does not keep the
predicate true, as the counterexample shows. -/
theorem claimC7 (A C fuel : Nat) (r : Commit) (hr : r ∈ (controllerRun A C fuel).2)
    (hdone : donePred r.pre) : r.phase = Phase.KID_BACK2 := by
  obtain ⟨hg, hAonly, hkids, hac, hkb, hko, hkf, hbn, hbs, hdn, h11, h12, h13, h14⟩ :=
    (controllerRun_spec A C fuel).1 r hr
  exact hdn hdone

theorem claimC7_counterexample :
    ((controllerRun 1 2 10).2[2]?).map (fun r => decide (donePred r.post)) = some true ∧
    ((controllerRun 1 2 10).2[3]?).map (fun r => decide (donePred r.post)) = some false := by
  constructor <;> decide

theorem claimC7_witness :
    donePred witnessCommitB.pre ∧ witnessCommitB.phase = Phase.KID_BACK2 :=
  ⟨by decide, claimC7 2 3 50 witnessCommitB
    (mem_of_getElemOpt (controllerRun 2 3 50).2 7 (by decide)) (by decide)⟩

/-- C10: after every trip commit the statistics satisfy
tripsToMain + tripsToIsland = twokid + kidAdult + solo = adultDrivers + childDrivers,
and each commit adds exactly one to the sum of each of the three groups. -/
theorem claimC10 (A C fuel : Nat) (r : Commit) (hr : r ∈ (controllerRun A C fuel).2) :
    (r.post.tripsToMain + r.post.tripsToIsland
        = r.post.twokidBoats + r.post.kidAdultBoats + r.post.soloBoats ∧
      r.post.tripsToMain + r.post.tripsToIsland
        = r.post.adultDrivers + r.post.childDrivers) ∧
    r.post.tripsToMain + r.post.tripsToIsland
      = r.pre.tripsToMain + r.pre.tripsToIsland + 1 ∧
    r.post.twokidBoats + r.post.kidAdultBoats + r.post.soloBoats
      = r.pre.twokidBoats + r.pre.kidAdultBoats + r.pre.soloBoats + 1 ∧
    r.post.adultDrivers + r.post.childDrivers
      = r.pre.adultDrivers + r.pre.childDrivers + 1 := by
  obtain ⟨hg, hAonly, hkids, hac, hkb, hko, hkf, hbn, hbs, hdn, h11, h12, h13, h14⟩ :=
    (controllerRun_spec A C fuel).1 r hr
  exact ⟨((controllerRun_spec A C fuel).2.1 r hr).2, h11, h12, h13⟩

theorem claimC10_witness :
    (witnessCommitA.post.tripsToMain + witnessCommitA.post.tripsToIsland
        = witnessCommitA.post.twokidBoats + witnessCommitA.post.kidAdultBoats
          + witnessCommitA.post.soloBoats ∧
      witnessCommitA.post.tripsToMain + witnessCommitA.post.tripsToIsland
        = witnessCommitA.post.adultDrivers + witnessCommitA.post.childDrivers) ∧
    witnessCommitA.post.tripsToMain + witnessCommitA.post.tripsToIsland
      = witnessCommitA.pre.tripsToMain + witnessCommitA.pre.tripsToIsland + 1 ∧
    witnessCommitA.post.twokidBoats + witnessCommitA.post.kidAdultBoats
        + witnessCommitA.post.soloBoats
      = witnessCommitA.pre.twokidBoats + witnessCommitA.pre.kidAdultBoats
        + witnessCommitA.pre.soloBoats + 1 ∧
    witnessCommitA.post.adultDrivers + witnessCommitA.post.childDrivers
      = witnessCommitA.pre.adultDrivers + witnessCommitA.pre.childDrivers + 1 :=
  claimC10 1 2 10 witnessCommitA
    (mem_of_getElemOpt (controllerRun 1 2 10).2 0 (by decide))

/-- C4 (amended): the configuration A = 0 is always rejected by argument
validation, whatever the child count C is. -/
theorem claimC4 (C : Int) : parse_args [some 0, some C] = none := by
  simp [parse_args]

theorem claimC4_counterexample :
    (2 : Int) >= 2 && parse_args [some 0, some 2] == none := by decide

theorem claimC4_witness : parse_args [some 0, some 7] = none := claimC4 7

/-- C5: `main` exits with status 1, before any thread starts, exactly on the bad
argument lists (count not 2, non-numeric entry, A <= 0, C <= 0, C < 2 or C < A+1),
and exits with status 0 exactly when the arguments parse and the run reaches full
evacuation. -/
theorem claimC5 (fuel : Nat) (args : List (Option Int)) :
    (mainRun fuel args = some 1 ↔ badArgs args) ∧
    (mainRun fuel args = some 0 ↔
      ∃ (A C : Int), parse_args args = some (A, C) ∧
        fullEvacB (controllerRun A.toNat C.toNat fuel).1 = true) := by
  constructor
  · rcases h : parse_args args with _ | ⟨A, C⟩
    · simp only [mainRun, h]
      exact ⟨fun _ => (parse_args_none_iff args).1 h, fun _ => trivial⟩
    · have hb : ¬ badArgs args := fun hba => by
        have h2 := (parse_args_none_iff args).2 hba
        rw [h] at h2
        exact Option.noConfusion h2
      simp only [mainRun, h]
      constructor
      · intro hh
        split_ifs at hh <;> simp at hh
      · intro hba
        exact absurd hba hb
  · rcases h : parse_args args with _ | ⟨A, C⟩
    · simp only [mainRun, h]
      constructor
      · intro hh
        simp at hh
      · rintro ⟨A, C, hAC, -⟩
        exact Option.noConfusion hAC
    · simp only [mainRun, h]
      constructor
      · intro hh
        refine ⟨A, C, rfl, ?_⟩
        split_ifs at hh with hf
        exact hf
      · rintro ⟨A2, C2, hAC, hf⟩
        injection hAC with hAC
        injection hAC with h1 h2
        subst h1
        subst h2
        simp [hf]

theorem claimC5_witness :
    mainRun 10 [some (1 : Int), some 3] = some 0 ∧
    mainRun 10 [some (0 : Int), some 3] = some 1 :=
  ⟨(claimC5 10 [some 1, some 3]).2.mpr ⟨1, 3, by decide, by decide⟩,
   (claimC5 10 [some 0, some 3]).1.mpr
     (Or.inr (Or.inr ⟨0, 3, rfl, Or.inl (by decide)⟩))⟩

/-- C6: the termination predicate holds exactly when both island counts are zero;
the head of the retry loop checks it first, and a person on the mainland that
observes it exits the loop (any other combination proceeds or blocks instead). -/
theorem claimC6 (b : Boat) (p : Person) :
    (donePred b ↔ b.adultsOnIsland = 0 ∧ b.childrenOnIsland = 0) ∧
    (runLoopHead b p = RunOutcome.exitsLoop ↔ donePred b ∧ p.position = Loc.MAINLAND) := by
  refine ⟨Iff.rfl, ?_⟩
  unfold runLoopHead donePred
  by_cases h : (b.adultsOnIsland == 0 && (b.childrenOnIsland == 0)
      && (p.position == Loc.MAINLAND)) = true
  · simp only [h, if_true]
    simp only [Bool.and_eq_true, beq_iff_eq] at h
    simp [h.1.1, h.1.2, h.2]
  · rw [Bool.not_eq_true] at h
    simp only [h, Bool.false_eq_true, if_false]
    constructor
    · intro hh
      split_ifs at hh
      all_goals exact RunOutcome.noConfusion hh
    · rintro ⟨⟨ha, hc⟩, hp⟩
      rw [Bool.and_eq_false_iff, Bool.and_eq_false_iff] at h
      rcases h with (h | h) | h
      · rw [beq_eq_false_iff_ne] at h
        exact absurd ha h
      · rw [beq_eq_false_iff_ne] at h
        exact absurd hc h
      · rw [beq_eq_false_iff_ne] at h
        exact absurd hp h

theorem claimC6_witness :
    runLoopHead {} { id := 0, isAdult := false, position := Loc.MAINLAND }
      = RunOutcome.exitsLoop :=
  (claimC6 {} { id := 0, isAdult := false, position := Loc.MAINLAND }).2.mpr
    ⟨⟨rfl, rfl⟩, rfl⟩

/-- C8: the driver writes the boat side as the flipped destination before the
transit delay (changing nothing else), the riders and the ledger move only in the
post-delay phase (which leaves the already-flipped side in place), and a committed
trip is exactly the pre-delay flip followed by the post-delay updates. -/
theorem claimC8 (s : Sim) (start : Loc) :
    (tripStart s).boat.location = flipLoc s.boat.location ∧
    (tripStart s).people = s.people ∧
    (tripStart s).boat.adultsOnIsland = s.boat.adultsOnIsland ∧
    (tripStart s).boat.childrenOnIsland = s.boat.childrenOnIsland ∧
    (tripFinish start s).boat.location = s.boat.location ∧
    tripCommit s = tripFinish s.boat.location (tripStart s) :=
  ⟨rfl, rfl, rfl, rfl, tripFinish_location start s, rfl⟩

end Island

namespace Semaphore

theorem wait_pos (c : Nat) (h : 0 < c) : wait c = some (c - 1) := by
  simp [wait, h]

theorem wait_none_iff (c : Nat) : wait c = none ↔ c = 0 := by
  unfold wait
  split_ifs with h
  · simp
    omega
  · simp
    omega

theorem wait_signal (c : Nat) (h : c + 1 < UINT_MOD) : wait (signal c) = some c := by
  unfold signal wait
  rw [Nat.mod_eq_of_lt h]
  simp

/-- C9: `wait` returns (decrementing the counter) exactly when the counter is
positive and blocks (no error path) exactly when it is zero; `signal` increments
the counter, and a `wait` after a `signal` succeeds and undoes it. -/
theorem claimC9 (c : Nat) :
    (0 < c → wait c = some (c - 1)) ∧
    (wait c = none ↔ c = 0) ∧
    signal c = (c + 1) % UINT_MOD ∧
    (c + 1 < UINT_MOD → wait (signal c) = some c) :=
  ⟨wait_pos c, wait_none_iff c, rfl, wait_signal c⟩

theorem claimC9_witness :
    wait 5 = some 4 ∧ wait 0 = none ∧ wait (signal 5) = some 5 :=
  ⟨(claimC9 5).1 (by decide), (claimC9 0).2.1.mpr rfl,
   (claimC9 5).2.2.2 (by decide)⟩

end Semaphore
